import Mathlib

/-!
# go-cr: task service, verified against its source

A shallow embedding of the three task servers of the repository:

* `Main`: the raw-driver server of `src/main.go` (gorilla/mux + database/sql),
* `Api`: the serverless raw-driver handlers of `src/api/*.go`,
* `Domain`, `Repository`, `Service`, `Handler`: the layered server
  (`src/internal/domain`, `src/lib/repository`, `src/lib/service`,
  `src/internal/handler`) on top of GORM.

The relational store is explicit state.  A table is the list of its rows in the
order a sequential scan delivers them; SQL gives no order to a `SELECT` without
`ORDER BY`, so nothing is assumed about that order.  Library calls whose code is
not part of the repository (JSON decoding of a request body, `database/sql`,
GORM) are modelled by their documented behaviour, on the values the handlers see.
-/

set_option linter.dupNamespace false

namespace GoCR

/-! ## Go values shared by the servers -/

/-- A `time.Time`, as seconds; `0` stands for Go's zero time. -/
abbrev Time := Nat

/-- A Go slice: `none` is the nil slice, `some l` a non-nil slice holding `l`. -/
abbrev Slice (α : Type) := Option (List α)

/-- Go's `append(s, x)`: appending to the nil slice allocates. -/
def Slice.append {α : Type} (s : Slice α) (x : α) : Slice α :=
  match s with
  | none => some [x]
  | some l => some (l ++ [x])

/-- The elements of a slice; the nil slice has none. -/
def Slice.elems {α : Type} (s : Slice α) : List α :=
  match s with
  | none => []
  | some l => l

/-- What a handler wrote as the response body, as a JSON value (or plain text). -/
inductive Body (τ : Type) where
  /-- nothing was written -/
  | empty
  /-- the JSON literal `null` -/
  | null
  /-- a JSON array of task objects -/
  | tasks (ts : List τ)
  /-- one task object -/
  | task (t : τ)
  /-- the object `{"error": msg}` -/
  | error (msg : String)
  /-- the plain text written by `http.Error` -/
  | text (msg : String)
  deriving DecidableEq, Repr

/-- An HTTP response: status code and body. -/
structure Response (τ : Type) where
  status : Nat
  body : Body τ
  deriving DecidableEq, Repr

/-- The function `json.Encoder.Encode` on a slice of tasks: the nil slice is
encoded as `null`, a non-nil slice as an array. -/
def encodeSlice {τ : Type} (s : Slice τ) : Body τ :=
  match s with
  | none => Body.null
  | some l => Body.tasks l

def StatusOK : Nat := 200
def StatusCreated : Nat := 201
def StatusNoContent : Nat := 204
def StatusBadRequest : Nat := 400
def StatusNotFound : Nat := 404
def StatusInternalServerError : Nat := 500

/-- The value of the decimal digits `ds`, most significant first. -/
def digitsValue (ds : List Char) : Nat :=
  ds.foldl (fun a c => 10 * a + (c.toNat - 48)) 0

/-- The function `strconv.Atoi`: an optional sign, then one or more decimal
digits, the value within the range of a 64-bit `int`. -/
def Atoi (s : String) : Option Int :=
  let cs := s.toList
  let neg := cs.head? == some '-'
  let ds := if cs.head? == some '-' || cs.head? == some '+' then cs.tail else cs
  if ds.isEmpty || !ds.all Char.isDigit then none
  else
    let v : Int := if neg then -(digitsValue ds : Int) else (digitsValue ds : Int)
    if v < -(2 : Int) ^ 63 ∨ (2 : Int) ^ 63 ≤ v then none else some v

/-- The call `strconv.ParseUint(s, 10, 32)`: one or more decimal digits, no
sign, the value below `2 ^ 32`. -/
def ParseUint32 (s : String) : Option Nat :=
  let ds := s.toList
  if ds.isEmpty || !ds.all Char.isDigit then none
  else if 2 ^ 32 ≤ digitsValue ds then none else some (digitsValue ds)

/-! ## The raw-driver servers: data and store -/

/-- The struct `Task` of `src/main.go` and of `src/api/db.go` (they are the same). -/
structure Task where
  ID : Int
  Title : String
  Description : String
  Completed : Bool
  CreatedAt : Time
  deriving DecidableEq, Repr

/-- The zero value of `Task`, what `var t Task` holds. -/
def Task.zero : Task :=
  { ID := 0, Title := "", Description := "", Completed := false, CreatedAt := 0 }

/-- The postgres database behind `*sql.DB`: the rows of table `tasks` in scan
order, the next value of the `id` sequence, the clock that fills `created_at`,
and whether the server can be reached. -/
structure DB where
  rows : List Task
  nextID : Int
  now : Time
  up : Bool
  deriving DecidableEq, Repr

/-- Why a `QueryRow(...).Scan` failed. -/
inductive RowErr where
  /-- the error `sql.ErrNoRows` -/
  | ErrNoRows
  /-- any other failure -/
  | other
  deriving DecidableEq, Repr

/-- The `sql.Result` of an `Exec`. -/
structure Result where
  RowsAffected : Except Unit Nat

/-- The rows of a cursor, each by what `rows.Scan` makes of it: `some t` when the
row decodes to `t`, `none` when `Scan` returns an error. -/
abbrev Rows := List (Option Task)

/-- Statement `SELECT id, title, description, completed, created_at FROM tasks ORDER BY id`. -/
def DB.Query (db : DB) : Except Unit Rows :=
  if db.up then
    Except.ok ((db.rows.insertionSort (fun a b => a.ID ≤ b.ID)).map some)
  else Except.error ()

/-- Statement `SELECT ... FROM tasks WHERE id = $1`, scanned into a `Task`. -/
def DB.QueryRow (db : DB) (id : Int) : Except RowErr Task :=
  if db.up then
    match db.rows.find? (fun t => t.ID == id) with
    | some t => Except.ok t
    | none => Except.error RowErr.ErrNoRows
  else Except.error RowErr.other

/-- Statement `INSERT INTO tasks (title, description, completed) VALUES ($1, $2, $3)
RETURNING id, created_at`: the store generates the identifier and the timestamp. -/
def DB.Insert (db : DB) (title description : String) (completed : Bool) :
    Except Unit ((Int × Time) × DB) :=
  if db.up then
    Except.ok ((db.nextID, db.now),
      { db with
        rows := db.rows ++ [{ ID := db.nextID, Title := title, Description := description,
                              Completed := completed, CreatedAt := db.now }],
        nextID := db.nextID + 1 })
  else Except.error ()

/-- Statement `UPDATE tasks SET title = $1, description = $2, completed = $3 WHERE id = $4`. -/
def DB.ExecUpdate (db : DB) (title description : String) (completed : Bool) (id : Int) :
    Except Unit (Result × DB) :=
  if db.up then
    Except.ok
      ({ RowsAffected := Except.ok (db.rows.countP (fun t => t.ID == id)) },
       { db with
         rows := db.rows.map (fun t =>
           if t.ID == id then
             { t with Title := title, Description := description, Completed := completed }
           else t) })
  else Except.error ()

/-- Statement `DELETE FROM tasks WHERE id = $1`. -/
def DB.ExecDelete (db : DB) (id : Int) : Except Unit (Result × DB) :=
  if db.up then
    Except.ok
      ({ RowsAffected := Except.ok (db.rows.countP (fun t => t.ID == id)) },
       { db with rows := db.rows.filter (fun t => !(t.ID == id)) })
  else Except.error ()

/-- The loop `for rows.Next() { ... }` of `getTasks`: a row whose `Scan` fails is
skipped, the others are appended to `tasks`. -/
def scanRows (rows : Rows) (tasks : Slice Task) : Slice Task :=
  match rows with
  | [] => tasks
  | none :: rest => scanRows rest tasks
  | some t :: rest => scanRows rest (Slice.append tasks t)

/-! ## `src/main.go`: the gorilla/mux server

Each handler takes the database, the `{id}` path variable where the route has
one, and the outcome of decoding the request body into a `Task` (`none` when
`Decode` returns an error; a field absent from the body keeps its zero value).
It returns the response and the database after the request. -/

namespace Main

/-- The body of `getTasks` after the query: the scan loop and the encoding. -/
def getTasksOn (q : Except Unit Rows) : Response Task :=
  match q with
  | Except.error _ =>
    { status := StatusInternalServerError, body := Body.error "Failed to fetch tasks" }
  | Except.ok rows =>
    { status := StatusOK, body := encodeSlice (scanRows rows none) }

/-- Handler `getTasks`, `GET /tasks`. -/
def getTasks (db : DB) : Response Task :=
  getTasksOn db.Query

/-- Handler `getTask`, `GET /tasks/{id}`. -/
def getTask (db : DB) (idVar : String) : Response Task :=
  match Atoi idVar with
  | none => { status := StatusBadRequest, body := Body.error "Invalid task ID" }
  | some id =>
    match db.QueryRow id with
    | Except.error RowErr.ErrNoRows =>
      { status := StatusNotFound, body := Body.error "Task not found" }
    | Except.error RowErr.other =>
      { status := StatusInternalServerError, body := Body.error "Failed to fetch task" }
    | Except.ok task => { status := StatusOK, body := Body.task task }

/-- Handler `createTask`, `POST /tasks`. -/
def createTask (db : DB) (decoded : Option Task) : Response Task × DB :=
  match decoded with
  | none => ({ status := StatusBadRequest, body := Body.error "Invalid JSON" }, db)
  | some newTask =>
    if newTask.Title = "" then
      ({ status := StatusBadRequest, body := Body.error "Title is required" }, db)
    else
      match db.Insert newTask.Title newTask.Description false with
      | Except.error _ =>
        ({ status := StatusInternalServerError, body := Body.error "Failed to create task" }, db)
      | Except.ok ((id, createdAt), db1) =>
        let newTask := { newTask with ID := id, CreatedAt := createdAt }
        let newTask := { newTask with Completed := false }
        ({ status := StatusCreated, body := Body.task newTask }, db1)

/-- Handler `updateTask`, `PUT /tasks/{id}`. -/
def updateTask (db : DB) (idVar : String) (decoded : Option Task) : Response Task × DB :=
  match Atoi idVar with
  | none => ({ status := StatusBadRequest, body := Body.error "Invalid task ID" }, db)
  | some id =>
    match decoded with
    | none => ({ status := StatusBadRequest, body := Body.error "Invalid JSON" }, db)
    | some updatedTask =>
      match db.ExecUpdate updatedTask.Title updatedTask.Description updatedTask.Completed id with
      | Except.error _ =>
        ({ status := StatusInternalServerError, body := Body.error "Failed to update task" }, db)
      | Except.ok (result, db1) =>
        match result.RowsAffected with
        | Except.error _ =>
          ({ status := StatusInternalServerError, body := Body.error "Failed to update task" },
            db1)
        | Except.ok rowsAffected =>
          if rowsAffected = 0 then
            ({ status := StatusNotFound, body := Body.error "Task not found" }, db1)
          else
            match db1.QueryRow id with
            | Except.error _ =>
              ({ status := StatusInternalServerError,
                 body := Body.error "Failed to fetch updated task" }, db1)
            | Except.ok task => ({ status := StatusOK, body := Body.task task }, db1)

/-- Handler `deleteTask`, `DELETE /tasks/{id}`. -/
def deleteTask (db : DB) (idVar : String) : Response Task × DB :=
  match Atoi idVar with
  | none => ({ status := StatusBadRequest, body := Body.error "Invalid task ID" }, db)
  | some id =>
    match db.ExecDelete id with
    | Except.error _ =>
      ({ status := StatusInternalServerError, body := Body.error "Failed to delete task" }, db)
    | Except.ok (result, db1) =>
      match result.RowsAffected with
      | Except.error _ =>
        ({ status := StatusInternalServerError, body := Body.error "Failed to delete task" },
          db1)
      | Except.ok rowsAffected =>
        if rowsAffected = 0 then
          ({ status := StatusNotFound, body := Body.error "Task not found" }, db1)
        else
          ({ status := StatusNoContent, body := Body.empty }, db1)

end Main

/-! ## `src/api`: the serverless handlers

They open a connection per request with `ConnectDB` and report errors as plain
text through `http.Error`.  `getTaskByID`, `updateTaskByID` and `deleteTaskByID`
receive the identifier already parsed by `TaskByID`. -/

namespace Api

/-- The function `ConnectDB`: opens and pings the database. -/
def ConnectDB (db : DB) : Except Unit DB :=
  if db.up then Except.ok db else Except.error ()

/-- The body of `getTasks` after the query: the scan loop and the encoding. -/
def getTasksOn (q : Except Unit Rows) : Response Task :=
  match q with
  | Except.error _ =>
    { status := StatusInternalServerError, body := Body.text "Failed to fetch tasks" }
  | Except.ok rows =>
    { status := StatusOK, body := encodeSlice (scanRows rows none) }

/-- Handler `getTasks`, `GET /api/tasks`. -/
def getTasks (db : DB) : Response Task :=
  match ConnectDB db with
  | Except.error _ =>
    { status := StatusInternalServerError, body := Body.text "Database connection failed" }
  | Except.ok conn => getTasksOn conn.Query

/-- Handler `createTask`, `POST /api/tasks`. -/
def createTask (db : DB) (decoded : Option Task) : Response Task × DB :=
  match decoded with
  | none => ({ status := StatusBadRequest, body := Body.text "Invalid JSON" }, db)
  | some newTask =>
    if newTask.Title = "" then
      ({ status := StatusBadRequest, body := Body.text "Title is required" }, db)
    else
      match ConnectDB db with
      | Except.error _ =>
        ({ status := StatusInternalServerError, body := Body.text "Database connection failed" },
          db)
      | Except.ok conn =>
        match conn.Insert newTask.Title newTask.Description false with
        | Except.error _ =>
          ({ status := StatusInternalServerError, body := Body.text "Failed to create task" },
            conn)
        | Except.ok ((id, createdAt), db1) =>
          let newTask := { newTask with ID := id, CreatedAt := createdAt }
          let newTask := { newTask with Completed := false }
          ({ status := StatusCreated, body := Body.task newTask }, db1)

/-- Handler `getTaskByID`, `GET /api/task?id=`. -/
def getTaskByID (db : DB) (id : Int) : Response Task :=
  match ConnectDB db with
  | Except.error _ =>
    { status := StatusInternalServerError, body := Body.text "Database connection failed" }
  | Except.ok conn =>
    match conn.QueryRow id with
    | Except.error RowErr.ErrNoRows =>
      { status := StatusNotFound, body := Body.text "Task not found" }
    | Except.error RowErr.other =>
      { status := StatusInternalServerError, body := Body.text "Failed to fetch task" }
    | Except.ok task => { status := StatusOK, body := Body.task task }

/-- Handler `updateTaskByID`, `PUT /api/task?id=`. -/
def updateTaskByID (db : DB) (id : Int) (decoded : Option Task) : Response Task × DB :=
  match decoded with
  | none => ({ status := StatusBadRequest, body := Body.text "Invalid JSON" }, db)
  | some updatedTask =>
    match ConnectDB db with
    | Except.error _ =>
      ({ status := StatusInternalServerError, body := Body.text "Database connection failed" },
        db)
    | Except.ok conn =>
      match conn.ExecUpdate updatedTask.Title updatedTask.Description updatedTask.Completed id with
      | Except.error _ =>
        ({ status := StatusInternalServerError, body := Body.text "Failed to update task" }, conn)
      | Except.ok (result, db1) =>
        match result.RowsAffected with
        | Except.error _ =>
          ({ status := StatusInternalServerError, body := Body.text "Failed to update task" },
            db1)
        | Except.ok rowsAffected =>
          if rowsAffected = 0 then
            ({ status := StatusNotFound, body := Body.text "Task not found" }, db1)
          else
            match db1.QueryRow id with
            | Except.error _ =>
              ({ status := StatusInternalServerError,
                 body := Body.text "Failed to fetch updated task" }, db1)
            | Except.ok task => ({ status := StatusOK, body := Body.task task }, db1)

/-- Handler `deleteTaskByID`, `DELETE /api/task?id=`. -/
def deleteTaskByID (db : DB) (id : Int) : Response Task × DB :=
  match ConnectDB db with
  | Except.error _ =>
    ({ status := StatusInternalServerError, body := Body.text "Database connection failed" },
      db)
  | Except.ok conn =>
    match conn.ExecDelete id with
    | Except.error _ =>
      ({ status := StatusInternalServerError, body := Body.text "Failed to delete task" }, conn)
    | Except.ok (result, db1) =>
      match result.RowsAffected with
      | Except.error _ =>
        ({ status := StatusInternalServerError, body := Body.text "Failed to delete task" },
          db1)
      | Except.ok rowsAffected =>
        if rowsAffected = 0 then
          ({ status := StatusNotFound, body := Body.text "Task not found" }, db1)
        else
          ({ status := StatusNoContent, body := Body.empty }, db1)

end Api

/-! ## The layered server: domain types -/

namespace Domain

/-- The struct `Task` of `src/internal/domain/task.go`. -/
structure Task where
  ID : Nat
  Title : String
  Description : String
  Completed : Bool
  CreatedAt : Time
  deriving DecidableEq, Repr

/-- The struct `CreateTaskRequest`; `Title` carries `binding:"required"`. -/
structure CreateTaskRequest where
  Title : String
  Description : String
  deriving DecidableEq, Repr

/-- The struct `UpdateTaskRequest`: every field is a pointer, `none` when the
field is absent from the request. -/
structure UpdateTaskRequest where
  Title : Option String
  Description : Option String
  Completed : Option Bool
  deriving DecidableEq, Repr

end Domain

/-- A Go `error` value of the layered server. -/
inductive Error where
  /-- the error `gorm.ErrRecordNotFound` -/
  | ErrRecordNotFound
  /-- the database could not be reached or refused the statement -/
  | unavailable
  /-- the value `errors.New(msg)` -/
  | New (msg : String)
  deriving DecidableEq, Repr

/-- The method `Error()` of an `error`. -/
def Error.Error (e : Error) : String :=
  match e with
  | Error.ErrRecordNotFound => "record not found"
  | Error.unavailable => "database unavailable"
  | Error.New msg => msg

/-! ## `src/lib/repository/task_repository.go` on GORM -/

namespace Repository

/-- A call of a `TaskRepository` method, as recorded by the store. -/
inductive Call where
  | Create
  | GetAll
  | GetByID (id : Nat)
  | Update (id : Nat)
  | Delete (id : Nat)
  deriving DecidableEq, Repr

/-- The database behind `*gorm.DB`: the rows of table `tasks` in scan order, the
next value of the `id` sequence, the clock, the outcome of the coming
statements (`true` for a statement that fails, none left for a database that is
reachable from here on), and the repository calls made so far. -/
structure GormDB where
  rows : List Domain.Task
  nextID : Nat
  now : Time
  outages : List Bool
  calls : List Call
  deriving DecidableEq, Repr

/-- Records a repository call. -/
def GormDB.record (db : GormDB) (c : Call) : GormDB :=
  { db with calls := db.calls ++ [c] }

/-- Sends one statement: whether it goes through, and the database afterwards. -/
def GormDB.send (db : GormDB) : Bool × GormDB :=
  match db.outages with
  | [] => (true, db)
  | fails :: rest => (!fails, { db with outages := rest })

/-- GORM's `Updates` called with a struct value: only the fields of `task` that
are not the zero value of their type are assigned. -/
def gormUpdates (task row : Domain.Task) : Domain.Task :=
  { ID := if task.ID = 0 then row.ID else task.ID,
    Title := if task.Title = "" then row.Title else task.Title,
    Description := if task.Description = "" then row.Description else task.Description,
    Completed := if task.Completed = false then row.Completed else task.Completed,
    CreatedAt := if task.CreatedAt = 0 then row.CreatedAt else task.CreatedAt }

/-- Method `taskRepository.Create`: `db.Create(task)` inserts the row and writes
the generated identifier and creation time back into `task`. -/
def Create (task : Domain.Task) (db : GormDB) : Except Error Domain.Task × GormDB :=
  let db := db.record Call.Create
  match db.send with
  | (false, db) => (Except.error Error.unavailable, db)
  | (true, db) =>
    let task := { task with
      ID := if task.ID = 0 then db.nextID else task.ID,
      CreatedAt := if task.CreatedAt = 0 then db.now else task.CreatedAt }
    (Except.ok task, { db with rows := db.rows ++ [task], nextID := db.nextID + 1 })

/-- Method `taskRepository.GetAll`: `db.Find(&tasks)`, a `SELECT` with no
`ORDER BY`. -/
def GetAll (db : GormDB) : Except Error (List Domain.Task) × GormDB :=
  let db := db.record Call.GetAll
  match db.send with
  | (false, db) => (Except.error Error.unavailable, db)
  | (true, db) => (Except.ok db.rows, db)

/-- Method `taskRepository.GetByID`: `db.First(&task, id)`. -/
def GetByID (id : Nat) (db : GormDB) : Except Error Domain.Task × GormDB :=
  let db := db.record (Call.GetByID id)
  match db.send with
  | (false, db) => (Except.error Error.unavailable, db)
  | (true, db) =>
    match db.rows.find? (fun t => t.ID == id) with
    | none => (Except.error Error.ErrRecordNotFound, db)
    | some task => (Except.ok task, db)

/-- Method `taskRepository.Update`:
`db.Model(&domain.Task{}).Where("id = ?", id).Updates(task)`. -/
def Update (id : Nat) (task : Domain.Task) (db : GormDB) : Except Error Unit × GormDB :=
  let db := db.record (Call.Update id)
  match db.send with
  | (false, db) => (Except.error Error.unavailable, db)
  | (true, db) =>
    (Except.ok (),
      { db with rows := db.rows.map (fun row => if row.ID == id then gormUpdates task row else row) })

/-- Method `taskRepository.Delete`: `db.Delete(&domain.Task{}, id)`. -/
def Delete (id : Nat) (db : GormDB) : Except Error Unit × GormDB :=
  let db := db.record (Call.Delete id)
  match db.send with
  | (false, db) => (Except.error Error.unavailable, db)
  | (true, db) => (Except.ok (), { db with rows := db.rows.filter (fun t => !(t.ID == id)) })

end Repository

/-! ## `src/lib/service/task_service.go` -/

namespace Service

open Repository

/-- Method `taskService.CreateTask`. -/
def CreateTask (req : Domain.CreateTaskRequest) (db : GormDB) :
    Except Error Domain.Task × GormDB :=
  let task : Domain.Task :=
    { ID := 0, Title := req.Title, Description := req.Description, Completed := false,
      CreatedAt := 0 }
  match Repository.Create task db with
  | (Except.error err, db) => (Except.error err, db)
  | (Except.ok task, db) => (Except.ok task, db)

/-- Method `taskService.GetAllTasks`. -/
def GetAllTasks (db : GormDB) : Except Error (List Domain.Task) × GormDB :=
  Repository.GetAll db

/-- Method `taskService.GetTaskByID`. -/
def GetTaskByID (id : Nat) (db : GormDB) : Except Error Domain.Task × GormDB :=
  match Repository.GetByID id db with
  | (Except.error _, db) => (Except.error (Error.New "task not found"), db)
  | (Except.ok task, db) => (Except.ok task, db)

/-- The three `if req.X != nil { existingTask.X = *req.X }` of `UpdateTask`. -/
def applyRequest (existingTask : Domain.Task) (req : Domain.UpdateTaskRequest) : Domain.Task :=
  let existingTask :=
    match req.Title with
    | some title => { existingTask with Title := title }
    | none => existingTask
  let existingTask :=
    match req.Description with
    | some description => { existingTask with Description := description }
    | none => existingTask
  match req.Completed with
  | some completed => { existingTask with Completed := completed }
  | none => existingTask

/-- Method `taskService.UpdateTask`. -/
def UpdateTask (id : Nat) (req : Domain.UpdateTaskRequest) (db : GormDB) :
    Except Error Domain.Task × GormDB :=
  match Repository.GetByID id db with
  | (Except.error _, db) => (Except.error (Error.New "task not found"), db)
  | (Except.ok existingTask, db) =>
    let existingTask := applyRequest existingTask req
    match Repository.Update id existingTask db with
    | (Except.error err, db) => (Except.error err, db)
    | (Except.ok _, db) => (Except.ok existingTask, db)

/-- Method `taskService.DeleteTask`. -/
def DeleteTask (id : Nat) (db : GormDB) : Except Error Unit × GormDB :=
  match Repository.GetByID id db with
  | (Except.error _, db) => (Except.error (Error.New "task not found"), db)
  | (Except.ok _, db) => Repository.Delete id db

end Service

/-! ## `src/internal/handler/task_handler.go`

A handler takes the `:id` path parameter where the route has one and the
outcome of decoding the JSON body (`Except.error msg` when it is malformed). -/

namespace Handler

open Repository

/-- Gin's `ShouldBindJSON` on a `CreateTaskRequest`: decoding, then the
`required` validation of `Title`, which rejects the zero value. -/
def bindCreateTaskRequest (decoded : Except String Domain.CreateTaskRequest) :
    Except Error Domain.CreateTaskRequest :=
  match decoded with
  | Except.error msg => Except.error (Error.New msg)
  | Except.ok req =>
    if req.Title = "" then
      Except.error (Error.New
        "Field validation for Title failed on the required tag")
    else Except.ok req

/-- Gin's `ShouldBindJSON` on an `UpdateTaskRequest`, which has no validation tag. -/
def bindUpdateTaskRequest (decoded : Except String Domain.UpdateTaskRequest) :
    Except Error Domain.UpdateTaskRequest :=
  match decoded with
  | Except.error msg => Except.error (Error.New msg)
  | Except.ok req => Except.ok req

/-- Handler `TaskHandler.CreateTask`, `POST /api/tasks`. -/
def CreateTask (decoded : Except String Domain.CreateTaskRequest) (db : GormDB) :
    Response Domain.Task × GormDB :=
  match bindCreateTaskRequest decoded with
  | Except.error err => ({ status := StatusBadRequest, body := Body.error err.Error }, db)
  | Except.ok req =>
    match Service.CreateTask req db with
    | (Except.error err, db) =>
      ({ status := StatusInternalServerError, body := Body.error err.Error }, db)
    | (Except.ok task, db) => ({ status := StatusCreated, body := Body.task task }, db)

/-- Handler `TaskHandler.GetAllTasks`, `GET /api/tasks`. -/
def GetAllTasks (db : GormDB) : Response Domain.Task × GormDB :=
  match Service.GetAllTasks db with
  | (Except.error err, db) =>
    ({ status := StatusInternalServerError, body := Body.error err.Error }, db)
  | (Except.ok tasks, db) => ({ status := StatusOK, body := Body.tasks tasks }, db)

/-- Handler `TaskHandler.GetTaskByID`, `GET /api/tasks/:id`. -/
def GetTaskByID (idStr : String) (db : GormDB) : Response Domain.Task × GormDB :=
  match ParseUint32 idStr with
  | none => ({ status := StatusBadRequest, body := Body.error "Invalid task ID" }, db)
  | some id =>
    match Service.GetTaskByID id db with
    | (Except.error err, db) => ({ status := StatusNotFound, body := Body.error err.Error }, db)
    | (Except.ok task, db) => ({ status := StatusOK, body := Body.task task }, db)

/-- Handler `TaskHandler.UpdateTask`, `PUT /api/tasks/:id`. -/
def UpdateTask (idStr : String) (decoded : Except String Domain.UpdateTaskRequest)
    (db : GormDB) : Response Domain.Task × GormDB :=
  match ParseUint32 idStr with
  | none => ({ status := StatusBadRequest, body := Body.error "Invalid task ID" }, db)
  | some id =>
    match bindUpdateTaskRequest decoded with
    | Except.error err => ({ status := StatusBadRequest, body := Body.error err.Error }, db)
    | Except.ok req =>
      match Service.UpdateTask id req db with
      | (Except.error err, db) => ({ status := StatusNotFound, body := Body.error err.Error }, db)
      | (Except.ok task, db) => ({ status := StatusOK, body := Body.task task }, db)

/-- Handler `TaskHandler.DeleteTask`, `DELETE /api/tasks/:id`. -/
def DeleteTask (idStr : String) (db : GormDB) : Response Domain.Task × GormDB :=
  match ParseUint32 idStr with
  | none => ({ status := StatusBadRequest, body := Body.error "Invalid task ID" }, db)
  | some id =>
    match Service.DeleteTask id db with
    | (Except.error err, db) => ({ status := StatusNotFound, body := Body.error err.Error }, db)
    | (Except.ok _, db) => ({ status := StatusNoContent, body := Body.empty }, db)

end Handler

/-! ## Users and authentication: `src/internal/domain/user.go` -/

namespace Domain

/-- The struct `User`; the tag of `Password` is `json:"-"`. -/
structure User where
  ID : Nat
  Email : String
  Password : String
  CreatedAt : Time
  deriving DecidableEq, Repr

/-- The struct `RegisterRequest`. -/
structure RegisterRequest where
  Email : String
  Password : String
  deriving DecidableEq, Repr

/-- The struct `LoginRequest`. -/
structure LoginRequest where
  Email : String
  Password : String
  deriving DecidableEq, Repr

/-- The struct `AuthResponse`. -/
structure AuthResponse where
  Token : String
  User : User
  deriving DecidableEq, Repr

/-- A JSON value that is not an object. -/
inductive Scalar where
  | num (n : Nat)
  | str (s : String)
  | time (t : Time)
  deriving DecidableEq, Repr

/-- A JSON object whose members are scalars: the members in order, by name. -/
abbrev Object := List (String × Scalar)

/-- The JSON encoding of a `User`, by its struct tags: `id`, `email` and
`created_at`; the field tagged `json:"-"` is left out. -/
def User.MarshalJSON (u : User) : Object :=
  [("id", Scalar.num u.ID), ("email", Scalar.str u.Email), ("created_at", Scalar.time u.CreatedAt)]

/-- The JSON encoding of an `AuthResponse`, by its struct tags: the member
`token`, a scalar, and the member `user`, an object. -/
def AuthResponse.MarshalJSON (r : AuthResponse) : List (String × (Scalar ⊕ Object)) :=
  [("token", Sum.inl (Scalar.str r.Token)), ("user", Sum.inr r.User.MarshalJSON)]

end Domain

/-! ## The user store -/

namespace UserRepository

/-- A call of a `UserRepository` method, as recorded by the store. -/
inductive Call where
  | GetByEmail (email : String)
  | Create (email : String)
  deriving DecidableEq, Repr

/-- Modelled from the spec: the database behind `repository.UserRepository`,
whose implementation is not among the source files.  The rows of table `users`,
the next identifier, the clock, the outcome of the coming statements (`true`
for a statement that fails) and the repository calls made so far. -/
structure UserDB where
  users : List Domain.User
  nextID : Nat
  now : Time
  outages : List Bool
  calls : List Call
  deriving DecidableEq, Repr

/-- Records a repository call. -/
def UserDB.record (db : UserDB) (c : Call) : UserDB :=
  { db with calls := db.calls ++ [c] }

/-- Sends one statement: whether it goes through, and the database afterwards. -/
def UserDB.send (db : UserDB) : Bool × UserDB :=
  match db.outages with
  | [] => (true, db)
  | fails :: rest => (!fails, { db with outages := rest })

/-- Modelled from the spec: method `GetByEmail` of the user repository, the
lookup of a user by the unique email; it fails when no user has the email. -/
def GetByEmail (email : String) (db : UserDB) : Except Error Domain.User × UserDB :=
  let db := db.record (Call.GetByEmail email)
  match db.send with
  | (false, db) => (Except.error Error.unavailable, db)
  | (true, db) =>
    match db.users.find? (fun u => u.Email == email) with
    | none => (Except.error Error.ErrRecordNotFound, db)
    | some user => (Except.ok user, db)

/-- Modelled from the spec: method `Create` of the user repository.  The store
enforces the uniqueness of the email, generates the identifier and the creation
time and writes them back into `user`. -/
def Create (user : Domain.User) (db : UserDB) : Except Error Domain.User × UserDB :=
  let db := db.record (Call.Create user.Email)
  match db.send with
  | (false, db) => (Except.error Error.unavailable, db)
  | (true, db) =>
    if db.users.any (fun u => u.Email == user.Email) then
      (Except.error (Error.New "duplicate key value violates unique constraint"), db)
    else
      let user := { user with
        ID := if user.ID = 0 then db.nextID else user.ID,
        CreatedAt := if user.CreatedAt = 0 then db.now else user.CreatedAt }
      (Except.ok user, { db with users := db.users ++ [user], nextID := db.nextID + 1 })

end UserRepository

/-! ## `src/lib/service/auth_service.go` -/

namespace Service

open UserRepository

/-- The signing methods registered by `golang-jwt`. -/
inductive SigningMethod where
  | HS256 | HS384 | HS512
  | RS256 | RS384 | RS512
  | PS256 | PS384 | PS512
  | ES256 | ES384 | ES512
  | EdDSA
  | none
  deriving DecidableEq, Repr

/-- Whether the method is a `*jwt.SigningMethodHMAC`: the three `HS` methods. -/
def SigningMethod.isHMAC (m : SigningMethod) : Bool :=
  match m with
  | SigningMethod.HS256 | SigningMethod.HS384 | SigningMethod.HS512 => true
  | _ => false

/-- A `jwt.MapClaims`: the claims by name. -/
abbrev MapClaims := List (String × Int)

/-- A `jwt.Token`: its signing method and its claims. -/
structure Token where
  Method : SigningMethod
  Claims : MapClaims
  deriving DecidableEq, Repr

/-- The library calls of `bcrypt` and `golang-jwt` the service makes; their code
is not part of the repository. -/
structure Primitives where
  /-- the call `bcrypt.GenerateFromPassword(password, bcrypt.DefaultCost)` -/
  GenerateFromPassword : String → Except Error String
  /-- the call `bcrypt.CompareHashAndPassword(hashedPassword, password)` -/
  CompareHashAndPassword : String → String → Except Error Unit
  /-- the method `token.SignedString(key)` -/
  SignedString : Token → String → Except Error String
  /-- the decoding of a token string into its header and claims, before any check -/
  ParseUnverified : String → Except Error Token
  /-- the method `token.Method.Verify` on the token string, under a key -/
  Verify : SigningMethod → String → String → Bool

/-- The struct `authService`, less the repository, which is passed as state. -/
structure authService where
  jwtSecret : String
  deriving DecidableEq, Repr

/-- An instant, in nanoseconds since the Unix epoch. -/
abbrev Instant := Int

/-- The constant `time.Hour`, a `time.Duration` in nanoseconds. -/
def Hour : Int := 3600 * 1000000000

/-- The method `Time.Add`. -/
def Add (t : Instant) (d : Int) : Instant := t + d

/-- The method `Time.Unix`: the seconds since the Unix epoch, rounded down. -/
def Unix (t : Instant) : Int := t / 1000000000

/-- Method `authService.generateToken`, at the instant `now` that `time.Now()` reads. -/
def generateToken (lib : Primitives) (s : authService) (now : Instant) (userID : Nat) :
    Except Error String :=
  let claims : MapClaims := [("user_id", (userID : Int)), ("exp", Unix (Add now (Hour * 24)))]
  let token : Token := { Method := SigningMethod.HS256, Claims := claims }
  lib.SignedString token s.jwtSecret

/-- Method `authService.Register`. -/
def Register (lib : Primitives) (s : authService) (now : Instant)
    (req : Domain.RegisterRequest) (db : UserDB) : Except Error Domain.AuthResponse × UserDB :=
  match UserRepository.GetByEmail req.Email db with
  | (Except.ok _, db) => (Except.error (Error.New "user already exists"), db)
  | (Except.error _, db) =>
    match lib.GenerateFromPassword req.Password with
    | Except.error err => (Except.error err, db)
    | Except.ok hashedPassword =>
      let user : Domain.User :=
        { ID := 0, Email := req.Email, Password := hashedPassword, CreatedAt := 0 }
      match UserRepository.Create user db with
      | (Except.error err, db) => (Except.error err, db)
      | (Except.ok user, db) =>
        match generateToken lib s now user.ID with
        | Except.error err => (Except.error err, db)
        | Except.ok token => (Except.ok { Token := token, User := user }, db)

/-- Method `authService.Login`. -/
def Login (lib : Primitives) (s : authService) (now : Instant)
    (req : Domain.LoginRequest) (db : UserDB) : Except Error Domain.AuthResponse × UserDB :=
  match UserRepository.GetByEmail req.Email db with
  | (Except.error _, db) => (Except.error (Error.New "invalid credentials"), db)
  | (Except.ok user, db) =>
    match lib.CompareHashAndPassword user.Password req.Password with
    | Except.error _ => (Except.error (Error.New "invalid credentials"), db)
    | Except.ok _ =>
      match generateToken lib s now user.ID with
      | Except.error err => (Except.error err, db)
      | Except.ok token => (Except.ok { Token := token, User := user }, db)

/-- The key function that `ValidateToken` hands to `jwt.Parse`. -/
def keyFunc (s : authService) (token : Token) : Except Error String :=
  if token.Method.isHMAC then Except.ok s.jwtSecret
  else Except.error (Error.New "invalid token")

/-- The function `jwt.Parse`: decode the token, ask the key function for the
key, verify the signature under it, then check the expiry. -/
def jwtParse (lib : Primitives) (now : Instant) (tokenString : String)
    (keyFunc : Token → Except Error String) : Except Error Token :=
  match lib.ParseUnverified tokenString with
  | Except.error err => Except.error err
  | Except.ok token =>
    match keyFunc token with
    | Except.error err =>
      Except.error (Error.New ("token is unverifiable: error while executing keyfunc: " ++ err.Error))
    | Except.ok key =>
      if !lib.Verify token.Method tokenString key then
        Except.error (Error.New "token signature is invalid")
      else
        match token.Claims.lookup "exp" with
        | some exp =>
          if Unix now < exp then Except.ok token
          else Except.error (Error.New "token has invalid claims: token is expired")
        | none => Except.ok token

/-- Method `authService.ValidateToken`. -/
def ValidateToken (lib : Primitives) (s : authService) (now : Instant) (tokenString : String) :
    Except Error Token :=
  jwtParse lib now tokenString (keyFunc s)

end Service

/-! ## Health checks -/

def StatusServiceUnavailable : Nat := 503
def StatusMethodNotAllowed : Nat := 405

/-- What a health handler wrote as the response body. -/
inductive HealthBody where
  /-- nothing was written -/
  | empty
  /-- the plain text written by `http.Error` -/
  | text (msg : String)
  /-- a JSON object, its members in the order of their names -/
  | object (members : Domain.Object)
  deriving DecidableEq, Repr

/-- The response of a health handler. -/
structure HealthResponse where
  status : Nat
  body : HealthBody
  deriving DecidableEq, Repr

namespace Main

/-- Handler `healthCheck` of `src/main.go`, at the instant `now`; `db.Ping()`
fails when the database is not reachable. -/
def healthCheck (db : DB) (now : Time) : HealthResponse :=
  let dbStatus := if db.up then "connected" else "disconnected"
  { status := StatusOK,
    body := HealthBody.object
      [("database", Domain.Scalar.str dbStatus), ("status", Domain.Scalar.str "healthy"),
       ("timestamp", Domain.Scalar.time now), ("version", Domain.Scalar.str "2.0.0")] }

end Main

namespace Api

/-- Handler `Health` of `src/api/health.go`, for a request of the given method. -/
def Health (method : String) (db : DB) (now : Time) : HealthResponse :=
  if method = "OPTIONS" then { status := StatusOK, body := HealthBody.empty }
  else if method ≠ "GET" then
    { status := StatusMethodNotAllowed, body := HealthBody.text "Method not allowed" }
  else
    let dbStatus :=
      match ConnectDB db with
      | Except.error _ => "disconnected"
      | Except.ok _ => "connected"
    { status := StatusOK,
      body := HealthBody.object
        [("database", Domain.Scalar.str dbStatus), ("status", Domain.Scalar.str "healthy"),
         ("timestamp", Domain.Scalar.time now),
         ("version", Domain.Scalar.str "2.0.0-serverless")] }

end Api

namespace Handler

open Repository

/-- The function `database.HealthCheck` of `src/pkg/database/postgres.go`: a ping. -/
def HealthCheck (db : GormDB) : Except Error Unit × GormDB :=
  match db.send with
  | (false, db) => (Except.error Error.unavailable, db)
  | (true, db) => (Except.ok (), db)

/-- The closure registered on `GET /health` in `src/cmd/api/main.go` and in
`src/api/main.go`. -/
def health (db : GormDB) : HealthResponse × GormDB :=
  match HealthCheck db with
  | (Except.error err, db) =>
    ({ status := StatusServiceUnavailable,
       body := HealthBody.object
         [("error", Domain.Scalar.str err.Error), ("status", Domain.Scalar.str "unhealthy")] },
     db)
  | (Except.ok _, db) =>
    ({ status := StatusOK, body := HealthBody.object [("status", Domain.Scalar.str "healthy")] },
     db)

end Handler

/-! ## `src/api/task.go`: the dispatcher `TaskByID` -/

/-- The pieces of `strings.Split(s, "/")`, on the characters of `s`. -/
def splitSlash : List Char → List (List Char)
  | [] => [[]]
  | c :: cs =>
    if c = '/' then [] :: splitSlash cs
    else
      match splitSlash cs with
      | [] => [[c]]
      | piece :: pieces => (c :: piece) :: pieces

/-- The call `strings.Split(s, "/")`. -/
def Split (s : String) : List String :=
  (splitSlash s.toList).map String.mk

namespace Api

/-- What `TaskByID` reads of an `*http.Request`: the method, the query
parameters, the URL path, and the outcome of decoding the body into a `Task`. -/
structure Request where
  Method : String
  Query : List (String × String)
  Path : String
  decoded : Option Task
  deriving DecidableEq, Repr

/-- The call `r.URL.Query().Get(key)`: the first value under `key`, or the empty string. -/
def Request.QueryGet (r : Request) (key : String) : String :=
  (r.Query.lookup key).getD ""

/-- The identifier string `TaskByID` works out: the query parameter `id`, else
the piece of the path at index 2. -/
def taskIDString (r : Request) : String :=
  let idStr := r.QueryGet "id"
  if idStr = "" then
    let parts := Split r.Path
    if parts.length ≥ 3 ∧ parts.getD 2 "" ≠ "" then parts.getD 2 "" else idStr
  else idStr

/-- Handler `TaskByID`. -/
def TaskByID (db : DB) (r : Request) : Response Task × DB :=
  if r.Method = "OPTIONS" then ({ status := StatusOK, body := Body.empty }, db)
  else
    let idStr := taskIDString r
    if idStr = "" then
      ({ status := StatusBadRequest, body := Body.text "Task ID is required" }, db)
    else
      match Atoi idStr with
      | none => ({ status := StatusBadRequest, body := Body.text "Invalid task ID" }, db)
      | some id =>
        if r.Method = "GET" then (getTaskByID db id, db)
        else if r.Method = "PUT" then updateTaskByID db id r.decoded
        else if r.Method = "DELETE" then deleteTaskByID db id
        else ({ status := StatusMethodNotAllowed, body := Body.text "Method not allowed" }, db)

end Api

/-! ## Sample stores and requests -/

/-- A stored task of the raw-driver servers. -/
def milk : Task :=
  { ID := 1, Title := "buy milk", Description := "2 litres", Completed := false, CreatedAt := 7 }

/-- A second stored task of the raw-driver servers. -/
def bread : Task :=
  { ID := 2, Title := "buy bread", Description := "", Completed := true, CreatedAt := 8 }

/-- A reachable database holding `milk` and `bread`. -/
def shop : DB :=
  { rows := [milk, bread], nextID := 3, now := 9, up := true }

/-- A reachable database with no task. -/
def emptyShop : DB :=
  { rows := [], nextID := 1, now := 9, up := true }

/-- What decoding the body `{"completed": true}` into a `Task` yields: the
fields absent from the body keep their zero value. -/
def completedOnly : Task :=
  { Task.zero with Completed := true }

/-- What decoding the body `{"title": "buy oat milk", "completed": true}` yields. -/
def oatMilk : Task :=
  { Task.zero with Title := "buy oat milk", Completed := true }

namespace Domain

/-- A stored task of the layered server, completed and with a description. -/
def milk : Task :=
  { ID := 1, Title := "buy milk", Description := "2 litres", Completed := true, CreatedAt := 7 }

/-- A second stored task of the layered server. -/
def bread : Task :=
  { ID := 2, Title := "buy bread", Description := "", Completed := false, CreatedAt := 8 }

end Domain

namespace Repository

/-- A reachable database holding the two sample tasks. -/
def gormShop : GormDB :=
  { rows := [Domain.milk, Domain.bread], nextID := 3, now := 9, outages := [], calls := [] }

/-- The same two tasks, `bread` ahead of `milk` in scan order. -/
def gormShuffled : GormDB :=
  { rows := [Domain.bread, Domain.milk], nextID := 3, now := 9, outages := [], calls := [] }

/-- The sample database when the second statement from now fails. -/
def gormFlaky : GormDB :=
  { gormShop with outages := [false, true] }

/-- The sample database when the coming statement fails. -/
def gormDown : GormDB :=
  { gormShop with outages := [true] }

end Repository

/-! ## Sample users and library stand-ins -/

namespace Service

/-- Stand-ins for the library calls, to run the service on concrete requests:
a hash that prefixes the password, a signature that names the key, and two
token strings, one per kind of signing method. -/
def toyLib : Primitives :=
  { GenerateFromPassword := fun password => Except.ok ("$2a$10$" ++ password),
    CompareHashAndPassword := fun hashedPassword password =>
      if hashedPassword = "$2a$10$" ++ password then Except.ok ()
      else Except.error (Error.New "hashedPassword is not the hash of the given password"),
    SignedString := fun _ key => Except.ok ("signed-with-" ++ key),
    ParseUnverified := fun tokenString =>
      if tokenString = "hs256-token" then
        Except.ok { Method := SigningMethod.HS256, Claims := [("user_id", 1), ("exp", 100)] }
      else if tokenString = "rs256-token" then
        Except.ok { Method := SigningMethod.RS256, Claims := [("user_id", 1), ("exp", 100)] }
      else Except.error (Error.New "token is malformed"),
    Verify := fun _ _ key => key == "default-secret-key" }

/-- The service under the default secret of `src/pkg/config/config.go`. -/
def defaultService : authService :=
  { jwtSecret := "default-secret-key" }

end Service

namespace UserRepository

/-- A registered user, her password hashed by `Service.toyLib`. -/
def alice : Domain.User :=
  { ID := 1, Email := "a@b.com", Password := "$2a$10$secret1", CreatedAt := 7 }

/-- A reachable user store holding `alice`. -/
def members : UserDB :=
  { users := [alice], nextID := 2, now := 9, outages := [], calls := [] }

/-- The same store when the coming statement fails. -/
def membersDown : UserDB :=
  { members with outages := [true] }

/-- The user that registering `c@d.com` with password `secret3` creates in `members`. -/
def carol : Domain.User :=
  { ID := 2, Email := "c@d.com", Password := "$2a$10$secret3", CreatedAt := 9 }

/-- The store `members` after that registration. -/
def membersAndCarol : UserDB :=
  { users := [alice, carol], nextID := 3, now := 9, outages := [],
    calls := [Call.GetByEmail "c@d.com", Call.Create "c@d.com"] }

end UserRepository

/-! ## Lemmas on the stores -/

/-- In a table whose keys are distinct, looking a stored row up by its key finds it. -/
theorem find?_key_of_mem {α κ : Type} [DecidableEq κ] (key : α → κ) (l : List α) (t : α)
    (hn : (l.map key).Nodup) (ht : t ∈ l) :
    l.find? (fun x => key x == key t) = some t := by
  induction l with
  | nil => cases ht
  | cons a l ih =>
    rw [List.map_cons, List.nodup_cons] at hn
    rcases List.mem_cons.1 ht with h | h
    · subst h
      simp
    · have hne : key a ≠ key t := by
        intro he
        exact hn.1 (he ▸ List.mem_map_of_mem key h)
      rw [List.find?_cons_of_neg _ (by simpa using hne)]
      exact ih hn.2 h

/-- Looking up a key that no row carries finds nothing. -/
theorem find?_key_of_absent {α κ : Type} [DecidableEq κ] (key : α → κ) (l : List α) (k : κ)
    (h : ∀ t ∈ l, key t ≠ k) :
    l.find? (fun x => key x == k) = none := by
  rw [List.find?_eq_none]
  intro x hx
  simpa using h x hx

namespace Service

open Repository

theorem applyRequest_fields (t : Domain.Task) (r : Domain.UpdateTaskRequest) :
    (applyRequest t r).Title = r.Title.getD t.Title ∧
    (applyRequest t r).Description = r.Description.getD t.Description ∧
    (applyRequest t r).Completed = r.Completed.getD t.Completed ∧
    (applyRequest t r).ID = t.ID ∧ (applyRequest t r).CreatedAt = t.CreatedAt := by
  rcases r with ⟨_ | title, _ | description, _ | completed⟩ <;> simp [applyRequest]

/-- Claim C1: for a task `t` stored in a reachable database whose identifiers are
distinct and for every update request `r`, `UpdateTask t.ID r` returns a task
whose title, description and completion flag are those of `r` where `r` carries
them and those of `t` otherwise, with the identifier and creation time of `t`. -/
theorem UpdateTask_returns_requested_fields (db : GormDB) (t : Domain.Task)
    (r : Domain.UpdateTaskRequest) (hup : db.outages = [])
    (hkey : (db.rows.map (fun x => x.ID)).Nodup) (ht : t ∈ db.rows) :
    ∃ u, (UpdateTask t.ID r db).1 = Except.ok u ∧
      u.Title = r.Title.getD t.Title ∧
      u.Description = r.Description.getD t.Description ∧
      u.Completed = r.Completed.getD t.Completed ∧
      u.ID = t.ID ∧ u.CreatedAt = t.CreatedAt := by
  have hfind := find?_key_of_mem (fun x : Domain.Task => x.ID) db.rows t hkey ht
  refine ⟨applyRequest t r, ?_, applyRequest_fields t r⟩
  simp only [UpdateTask, Repository.GetByID, Repository.Update, GormDB.record, GormDB.send, hup,
    hfind]

theorem UpdateTask_returns_requested_fields_witness :
    ∃ u, (UpdateTask Domain.milk.ID
        { Title := none, Description := some "", Completed := some false } gormShop).1
          = Except.ok u ∧
      u.Title = Option.getD none Domain.milk.Title ∧
      u.Description = Option.getD (some "") Domain.milk.Description ∧
      u.Completed = Option.getD (some false) Domain.milk.Completed ∧
      u.ID = Domain.milk.ID ∧ u.CreatedAt = Domain.milk.CreatedAt :=
  UpdateTask_returns_requested_fields gormShop Domain.milk
    { Title := none, Description := some "", Completed := some false }
    rfl (by decide) (by decide)

/-- Claim C2, evaluated on the code: a stored task is completed and has a
description; `UpdateTask` with `Completed` present and false and `Description`
present and empty answers with a task that is not completed and has an empty
description, yet `Updates` skips both zero values, and the following
`GetTaskByID` still returns the task completed and with its old description. -/
theorem UpdateTask_explicit_zero_not_stored :
    (UpdateTask 1 { Title := none, Description := some "", Completed := some false } gormShop).1
        = Except.ok { Domain.milk with Description := "", Completed := false } ∧
      (GetTaskByID 1
          (UpdateTask 1 { Title := none, Description := some "", Completed := some false }
            gormShop).2).1
        = Except.ok Domain.milk ∧
      Domain.milk.Completed = true ∧ Domain.milk.Description = "2 litres" :=
  ⟨rfl, rfl, rfl, rfl⟩

/-- Claim C7: for an identifier that no stored task carries, whatever the state
of the database, `GetTaskByID`, `UpdateTask` and `DeleteTask` each fail with
"task not found"; `UpdateTask` and `DeleteTask` make the one repository call
`GetByID` and no write call, and the stored rows are unchanged. -/
theorem missing_id_fails_without_write (db : GormDB) (id : Nat)
    (req : Domain.UpdateTaskRequest) (habsent : ∀ t ∈ db.rows, t.ID ≠ id) :
    (GetTaskByID id db).1 = Except.error (Error.New "task not found") ∧
    (UpdateTask id req db).1 = Except.error (Error.New "task not found") ∧
    (DeleteTask id db).1 = Except.error (Error.New "task not found") ∧
    (UpdateTask id req db).2.calls = db.calls ++ [Call.GetByID id] ∧
    (DeleteTask id db).2.calls = db.calls ++ [Call.GetByID id] ∧
    (UpdateTask id req db).2.rows = db.rows ∧
    (DeleteTask id db).2.rows = db.rows := by
  have hfind := find?_key_of_absent (fun x : Domain.Task => x.ID) db.rows id habsent
  rcases db with ⟨rows, nextID, now, outages, calls⟩
  simp only at hfind
  rcases outages with _ | ⟨_ | _, rest⟩ <;>
    simp [GetTaskByID, UpdateTask, DeleteTask, Repository.GetByID, GormDB.record, GormDB.send,
      hfind]

theorem missing_id_fails_without_write_witness :
    (GetTaskByID 5 gormFlaky).1 = Except.error (Error.New "task not found") ∧
    (UpdateTask 5 { Title := some "x", Description := none, Completed := none } gormFlaky).1
      = Except.error (Error.New "task not found") ∧
    (DeleteTask 5 gormFlaky).1 = Except.error (Error.New "task not found") ∧
    (UpdateTask 5 { Title := some "x", Description := none, Completed := none } gormFlaky).2.calls
      = gormFlaky.calls ++ [Call.GetByID 5] ∧
    (DeleteTask 5 gormFlaky).2.calls = gormFlaky.calls ++ [Call.GetByID 5] ∧
    (UpdateTask 5 { Title := some "x", Description := none, Completed := none } gormFlaky).2.rows
      = gormFlaky.rows ∧
    (DeleteTask 5 gormFlaky).2.rows = gormFlaky.rows :=
  missing_id_fails_without_write gormFlaky 5
    { Title := some "x", Description := none, Completed := none } (by decide)

end Service

/-! ## The raw-driver servers -/

/-- The row found under `id` after the `UPDATE` statement is the row found
before it with the three assigned columns replaced. -/
theorem find?_after_update (rows : List Task) (id : Int) (title description : String)
    (completed : Bool) (t : Task) (h : rows.find? (fun x => x.ID == id) = some t) :
    (rows.map (fun x =>
        if x.ID == id then
          { x with Title := title, Description := description, Completed := completed }
        else x)).find? (fun x => x.ID == id)
      = some { t with Title := title, Description := description, Completed := completed } := by
  have hid : t.ID = id := by
    simpa using List.find?_some (p := fun x : Task => x.ID == id) h
  have hcomp : ((fun x : Task => x.ID == id) ∘ fun x : Task =>
        if x.ID == id then
          { x with Title := title, Description := description, Completed := completed }
        else x) = fun x => x.ID == id := by
    funext x
    by_cases hx : x.ID = id <;> simp [hx]
  rw [List.find?_map, hcomp, h]
  simp [hid]

/-- A stored task is counted by the `WHERE id = $n` of an `Exec`. -/
theorem countP_id_ne_zero (rows : List Task) (t : Task) (ht : t ∈ rows) :
    rows.countP (fun x => x.ID == t.ID) ≠ 0 := by
  have h : 0 < rows.countP (fun x => x.ID == t.ID) :=
    List.countP_pos_iff.2 ⟨t, ht, by simp⟩
  omega

/-- Claim C3 as stated fails: on a store holding `milk`, whose description is
"2 litres", a PUT of `{"completed": true}` to its identifier does not leave
title and description as they were, in either raw-driver server. -/
theorem put_completed_only_not_a_frame :
    milk ∈ shop.rows ∧
    ¬ (∃ t, (Main.updateTask shop "1" (some completedOnly)).2.QueryRow 1 = Except.ok t ∧
        t.Title = milk.Title ∧ t.Description = milk.Description ∧ t.Completed = true) ∧
    ¬ (∃ t, (Api.updateTaskByID shop 1 (some completedOnly)).2.QueryRow 1 = Except.ok t ∧
        t.Title = milk.Title ∧ t.Description = milk.Description ∧ t.Completed = true) := by
  have hmain : (Main.updateTask shop "1" (some completedOnly)).2.QueryRow 1
      = Except.ok { milk with Title := "", Description := "", Completed := true } := rfl
  have hapi : (Api.updateTaskByID shop 1 (some completedOnly)).2.QueryRow 1
      = Except.ok { milk with Title := "", Description := "", Completed := true } := rfl
  refine ⟨by decide, ?_, ?_⟩
  · rintro ⟨t, ht, -, hd, -⟩
    rw [hmain] at ht
    cases ht
    revert hd
    decide
  · rintro ⟨t, ht, -, hd, -⟩
    rw [hapi] at ht
    cases ht
    revert hd
    decide

/-- Claim C3, amended: in both raw-driver servers, on a reachable database with
distinct identifiers, a PUT to the identifier of a stored task `t` answers 200
with the record now stored under that identifier.  Its description and
completion flag are those of the decoded body, its title is the title of the
body when that is not empty, and its identifier and creation time are those of
`t`.  For the body `{"completed": true}` the stored task is completed and its
description is empty. -/
theorem put_replaces_description_and_completed (db : DB) (idVar : String) (t body : Task)
    (hup : db.up = true) (hkey : (db.rows.map (fun x => x.ID)).Nodup) (ht : t ∈ db.rows)
    (hid : Atoi idVar = some t.ID) :
    ∃ u, db.QueryRow t.ID = Except.ok t ∧
      (Main.updateTask db idVar (some body)).1 = { status := StatusOK, body := Body.task u } ∧
      (Main.updateTask db idVar (some body)).2.QueryRow t.ID = Except.ok u ∧
      (Api.updateTaskByID db t.ID (some body)).1 = { status := StatusOK, body := Body.task u } ∧
      (Api.updateTaskByID db t.ID (some body)).2.QueryRow t.ID = Except.ok u ∧
      u.Description = body.Description ∧ u.Completed = body.Completed ∧
      u.ID = t.ID ∧ u.CreatedAt = t.CreatedAt ∧
      (body.Title ≠ "" → u.Title = body.Title) := by
  have hfind := find?_key_of_mem (fun x : Task => x.ID) db.rows t hkey ht
  have hafter := find?_after_update db.rows t.ID body.Title body.Description body.Completed t hfind
  have hcount := countP_id_ne_zero db.rows t ht
  refine ⟨{ t with Title := body.Title, Description := body.Description,
                   Completed := body.Completed }, ?_, ?_, ?_, ?_, ?_, rfl, rfl, rfl, rfl,
    fun _ => rfl⟩
  · simp only [DB.QueryRow, hup, hfind, if_true]
  · simp only [Main.updateTask, hid, DB.ExecUpdate, DB.QueryRow, hup, if_true, hcount, if_false,
      hafter]
  · simp only [Main.updateTask, hid, DB.ExecUpdate, DB.QueryRow, hup, if_true, hcount, if_false,
      hafter]
  · simp only [Api.updateTaskByID, Api.ConnectDB, DB.ExecUpdate, DB.QueryRow, hup, if_true,
      hcount, if_false, hafter]
  · simp only [Api.updateTaskByID, Api.ConnectDB, DB.ExecUpdate, DB.QueryRow, hup, if_true,
      hcount, if_false, hafter]

theorem put_replaces_description_and_completed_witness :
    (∃ u, shop.QueryRow milk.ID = Except.ok milk ∧
      (Main.updateTask shop "1" (some completedOnly)).1
        = { status := StatusOK, body := Body.task u } ∧
      (Main.updateTask shop "1" (some completedOnly)).2.QueryRow milk.ID = Except.ok u ∧
      (Api.updateTaskByID shop milk.ID (some completedOnly)).1
        = { status := StatusOK, body := Body.task u } ∧
      (Api.updateTaskByID shop milk.ID (some completedOnly)).2.QueryRow milk.ID = Except.ok u ∧
      u.Description = completedOnly.Description ∧ u.Completed = completedOnly.Completed ∧
      u.ID = milk.ID ∧ u.CreatedAt = milk.CreatedAt ∧
      (completedOnly.Title ≠ "" → u.Title = completedOnly.Title)) ∧
    (∃ u, shop.QueryRow milk.ID = Except.ok milk ∧
      (Main.updateTask shop "1" (some oatMilk)).1
        = { status := StatusOK, body := Body.task u } ∧
      (Main.updateTask shop "1" (some oatMilk)).2.QueryRow milk.ID = Except.ok u ∧
      (Api.updateTaskByID shop milk.ID (some oatMilk)).1
        = { status := StatusOK, body := Body.task u } ∧
      (Api.updateTaskByID shop milk.ID (some oatMilk)).2.QueryRow milk.ID = Except.ok u ∧
      u.Description = oatMilk.Description ∧ u.Completed = oatMilk.Completed ∧
      u.ID = milk.ID ∧ u.CreatedAt = milk.CreatedAt ∧
      u.Title = "buy oat milk") :=
  ⟨put_replaces_description_and_completed shop "1" milk completedOnly rfl (by decide)
      (by decide) rfl,
   (put_replaces_description_and_completed shop "1" milk oatMilk rfl (by decide)
      (by decide) rfl).imp
     (fun _ h => ⟨h.1, h.2.1, h.2.2.1, h.2.2.2.1, h.2.2.2.2.1, h.2.2.2.2.2.1,
       h.2.2.2.2.2.2.1, h.2.2.2.2.2.2.2.1, h.2.2.2.2.2.2.2.2.1,
       h.2.2.2.2.2.2.2.2.2 (by decide)⟩)⟩

/-- Claim C4: when the decoded title is empty, as it is for a body with no title
field, `createTask` of either raw-driver server answers 400 and hands the
database back as it was: nothing is inserted. -/
theorem createTask_empty_title_rejected (db : DB) (newTask : Task)
    (htitle : newTask.Title = "") :
    (Main.createTask db (some newTask)).1.status = 400 ∧
    (Main.createTask db (some newTask)).2 = db ∧
    (Api.createTask db (some newTask)).1.status = 400 ∧
    (Api.createTask db (some newTask)).2 = db := by
  simp [Main.createTask, Api.createTask, htitle, StatusBadRequest]

theorem createTask_empty_title_rejected_witness :
    (Main.createTask shop (some completedOnly)).1.status = 400 ∧
    (Main.createTask shop (some completedOnly)).2 = shop ∧
    (Api.createTask shop (some completedOnly)).1.status = 400 ∧
    (Api.createTask shop (some completedOnly)).2 = shop :=
  createTask_empty_title_rejected shop completedOnly rfl

/-- Claim C5: for a create request with a non-empty title on a reachable
database, whatever the body carries for completed, id and created_at, each
`createTask` appends the row made of the request's title and description,
completed false, and the identifier and timestamp the store generates, and
answers 201 with exactly that task; `taskService.CreateTask` does the same and
`TaskHandler.CreateTask` answers 201 with it. -/
theorem createTask_inserts_uncompleted (db : DB) (body : Task) (gdb : Repository.GormDB)
    (req : Domain.CreateTaskRequest) (htitle : body.Title ≠ "") (hup : db.up = true)
    (hreq : req.Title ≠ "") (hgup : gdb.outages = []) :
    Main.createTask db (some body)
      = ({ status := 201,
           body := Body.task { ID := db.nextID, Title := body.Title,
                               Description := body.Description, Completed := false,
                               CreatedAt := db.now } },
         { db with
           rows := db.rows ++ [{ ID := db.nextID, Title := body.Title,
                                 Description := body.Description, Completed := false,
                                 CreatedAt := db.now }],
           nextID := db.nextID + 1 }) ∧
    Api.createTask db (some body) = Main.createTask db (some body) ∧
    (Service.CreateTask req gdb).1
      = Except.ok { ID := gdb.nextID, Title := req.Title, Description := req.Description,
                    Completed := false, CreatedAt := gdb.now } ∧
    (Service.CreateTask req gdb).2.rows
      = gdb.rows ++ [{ ID := gdb.nextID, Title := req.Title, Description := req.Description,
                       Completed := false, CreatedAt := gdb.now }] ∧
    (Handler.CreateTask (Except.ok req) gdb).1
      = { status := 201,
          body := Body.task { ID := gdb.nextID, Title := req.Title,
                              Description := req.Description, Completed := false,
                              CreatedAt := gdb.now } } := by
  refine ⟨?_, ?_, ?_, ?_, ?_⟩
  · simp [Main.createTask, htitle, DB.Insert, hup, StatusCreated]
  · simp [Main.createTask, Api.createTask, Api.ConnectDB, htitle, DB.Insert, hup]
  · simp [Service.CreateTask, Repository.Create, Repository.GormDB.record,
      Repository.GormDB.send, hgup]
  · simp [Service.CreateTask, Repository.Create, Repository.GormDB.record,
      Repository.GormDB.send, hgup]
  · simp [Handler.CreateTask, Handler.bindCreateTaskRequest, hreq, Service.CreateTask,
      Repository.Create, Repository.GormDB.record, Repository.GormDB.send, hgup, StatusCreated]

theorem createTask_inserts_uncompleted_witness :
    Main.createTask shop (some { bread with Title := "call mum" })
      = ({ status := 201,
           body := Body.task { ID := 3, Title := "call mum", Description := "",
                               Completed := false, CreatedAt := 9 } },
         { shop with
           rows := shop.rows ++ [{ ID := 3, Title := "call mum", Description := "",
                                   Completed := false, CreatedAt := 9 }],
           nextID := 3 + 1 }) ∧
    Api.createTask shop (some { bread with Title := "call mum" })
      = Main.createTask shop (some { bread with Title := "call mum" }) ∧
    (Service.CreateTask { Title := "call mum", Description := "" } Repository.gormShop).1
      = Except.ok { ID := 3, Title := "call mum", Description := "", Completed := false,
                    CreatedAt := 9 } ∧
    (Service.CreateTask { Title := "call mum", Description := "" } Repository.gormShop).2.rows
      = Repository.gormShop.rows ++ [{ ID := 3, Title := "call mum", Description := "",
                                       Completed := false, CreatedAt := 9 }] ∧
    (Handler.CreateTask (Except.ok { Title := "call mum", Description := "" })
        Repository.gormShop).1
      = { status := 201,
          body := Body.task { ID := 3, Title := "call mum", Description := "",
                              Completed := false, CreatedAt := 9 } } :=
  createTask_inserts_uncompleted shop { bread with Title := "call mum" } Repository.gormShop
    { Title := "call mum", Description := "" } (by decide) rfl (by decide) rfl

/-! ## Deleting, then reading -/

/-- After the rows under a key are removed, looking that key up finds nothing. -/
theorem find?_removed_key {α κ : Type} [DecidableEq κ] (key : α → κ) (l : List α) (k : κ) :
    (l.filter (fun x => !(key x == k))).find? (fun x => key x == k) = none := by
  rw [List.find?_eq_none]
  intro x hx
  have h := (List.mem_filter.1 hx).2
  simpa using h

/-- Removing the rows under one key leaves the rows under the others in place. -/
theorem find?_kept_key {α κ : Type} [DecidableEq κ] (key : α → κ) (l : List α) (k : κ) (s : α)
    (hn : (l.map key).Nodup) (hs : s ∈ l) (hne : key s ≠ k) :
    (l.filter (fun x => !(key x == k))).find? (fun x => key x == key s) = some s := by
  apply find?_key_of_mem
  · exact List.Nodup.sublist ((List.filter_sublist l).map key) hn
  · exact List.mem_filter.2 ⟨hs, by simpa using hne⟩

/-- Server `src/main.go`: deleting a stored task answers 204, reading it back
answers 404, and every other stored task is still read back as it was. -/
theorem main_delete_then_get (db : DB) (idVar : String) (t : Task) (hup : db.up = true)
    (hkey : (db.rows.map (fun x => x.ID)).Nodup) (ht : t ∈ db.rows)
    (hid : Atoi idVar = some t.ID) :
    (Main.deleteTask db idVar).1.status = 204 ∧
    Main.getTask (Main.deleteTask db idVar).2 idVar
      = { status := 404, body := Body.error "Task not found" } ∧
    ∀ s ∈ db.rows, s.ID ≠ t.ID → ∀ sVar, Atoi sVar = some s.ID →
      Main.getTask (Main.deleteTask db idVar).2 sVar = { status := 200, body := Body.task s } := by
  have hcount := countP_id_ne_zero db.rows t ht
  have hdel : Main.deleteTask db idVar
      = ({ status := StatusNoContent, body := Body.empty },
         { db with rows := db.rows.filter (fun x => !(x.ID == t.ID)) }) := by
    simp only [Main.deleteTask, hid, DB.ExecDelete, hup, if_true, hcount, if_false]
  refine ⟨by rw [hdel]; rfl, ?_, ?_⟩
  · have h := find?_removed_key (fun x : Task => x.ID) db.rows t.ID
    simp only [hdel, Main.getTask, hid, DB.QueryRow, hup, if_true, h, StatusNotFound]
  · intro s hs hne sVar hsVar
    have h := find?_kept_key (fun x : Task => x.ID) db.rows t.ID s hkey hs hne
    simp only [hdel, Main.getTask, hsVar, DB.QueryRow, hup, if_true, h, StatusOK]

/-- Server `src/api`: the same for `deleteTaskByID` and `getTaskByID`. -/
theorem api_delete_then_get (db : DB) (t : Task) (hup : db.up = true)
    (hkey : (db.rows.map (fun x => x.ID)).Nodup) (ht : t ∈ db.rows) :
    (Api.deleteTaskByID db t.ID).1.status = 204 ∧
    Api.getTaskByID (Api.deleteTaskByID db t.ID).2 t.ID
      = { status := 404, body := Body.text "Task not found" } ∧
    ∀ s ∈ db.rows, s.ID ≠ t.ID →
      Api.getTaskByID (Api.deleteTaskByID db t.ID).2 s.ID
        = { status := 200, body := Body.task s } := by
  have hcount := countP_id_ne_zero db.rows t ht
  have hdel : Api.deleteTaskByID db t.ID
      = ({ status := StatusNoContent, body := Body.empty },
         { db with rows := db.rows.filter (fun x => !(x.ID == t.ID)) }) := by
    simp only [Api.deleteTaskByID, Api.ConnectDB, DB.ExecDelete, hup, if_true, hcount, if_false]
  refine ⟨by rw [hdel]; rfl, ?_, ?_⟩
  · have h := find?_removed_key (fun x : Task => x.ID) db.rows t.ID
    simp only [hdel, Api.getTaskByID, Api.ConnectDB, DB.QueryRow, hup, if_true, h,
      StatusNotFound]
  · intro s hs hne
    have h := find?_kept_key (fun x : Task => x.ID) db.rows t.ID s hkey hs hne
    simp only [hdel, Api.getTaskByID, Api.ConnectDB, DB.QueryRow, hup, if_true, h, StatusOK]

/-- The layered server: the same for `TaskHandler.DeleteTask` and
`TaskHandler.GetTaskByID`, through `taskService`. -/
theorem handler_delete_then_get (db : Repository.GormDB) (idStr : String) (t : Domain.Task)
    (hup : db.outages = []) (hkey : (db.rows.map (fun x => x.ID)).Nodup) (ht : t ∈ db.rows)
    (hid : ParseUint32 idStr = some t.ID) :
    (Handler.DeleteTask idStr db).1.status = 204 ∧
    (Handler.GetTaskByID idStr (Handler.DeleteTask idStr db).2).1
      = { status := 404, body := Body.error "task not found" } ∧
    ∀ s ∈ db.rows, s.ID ≠ t.ID → ∀ sStr, ParseUint32 sStr = some s.ID →
      (Handler.GetTaskByID sStr (Handler.DeleteTask idStr db).2).1
        = { status := 200, body := Body.task s } := by
  have hfind := find?_key_of_mem (fun x : Domain.Task => x.ID) db.rows t hkey ht
  have hdel : Handler.DeleteTask idStr db
      = ({ status := StatusNoContent, body := Body.empty },
         { db with
           rows := db.rows.filter (fun x => !(x.ID == t.ID)),
           calls := db.calls ++ [Repository.Call.GetByID t.ID] ++ [Repository.Call.Delete t.ID] }) := by
    simp only [Handler.DeleteTask, hid, Service.DeleteTask, Repository.GetByID,
      Repository.Delete, Repository.GormDB.record, Repository.GormDB.send, hup, hfind]
  refine ⟨by rw [hdel]; rfl, ?_, ?_⟩
  · have h := find?_removed_key (fun x : Domain.Task => x.ID) db.rows t.ID
    simp only [hdel, Handler.GetTaskByID, hid, Service.GetTaskByID, Repository.GetByID,
      Repository.GormDB.record, Repository.GormDB.send, hup, h, StatusNotFound, Error.Error]
  · intro s hs hne sStr hsStr
    have h := find?_kept_key (fun x : Domain.Task => x.ID) db.rows t.ID s hkey hs hne
    simp only [hdel, Handler.GetTaskByID, hsStr, Service.GetTaskByID, Repository.GetByID,
      Repository.GormDB.record, Repository.GormDB.send, hup, h, StatusOK]

/-- Claim C6: on a reachable store with distinct identifiers, deleting a stored
task succeeds with 204, a following GET of the same identifier answers 404
(task not found), and every other stored task is still returned unchanged by
GET; in `src/main.go`, in `src/api` and in the layered handlers. -/
theorem delete_then_get_not_found (db : DB) (idVar : String) (t : Task)
    (gdb : Repository.GormDB) (idStr : String) (g : Domain.Task)
    (hup : db.up = true) (hkey : (db.rows.map (fun x => x.ID)).Nodup) (ht : t ∈ db.rows)
    (hid : Atoi idVar = some t.ID)
    (hgup : gdb.outages = []) (hgkey : (gdb.rows.map (fun x => x.ID)).Nodup)
    (hg : g ∈ gdb.rows) (hgid : ParseUint32 idStr = some g.ID) :
    ((Main.deleteTask db idVar).1.status = 204 ∧
      Main.getTask (Main.deleteTask db idVar).2 idVar
        = { status := 404, body := Body.error "Task not found" } ∧
      ∀ s ∈ db.rows, s.ID ≠ t.ID → ∀ sVar, Atoi sVar = some s.ID →
        Main.getTask (Main.deleteTask db idVar).2 sVar
          = { status := 200, body := Body.task s }) ∧
    ((Api.deleteTaskByID db t.ID).1.status = 204 ∧
      Api.getTaskByID (Api.deleteTaskByID db t.ID).2 t.ID
        = { status := 404, body := Body.text "Task not found" } ∧
      ∀ s ∈ db.rows, s.ID ≠ t.ID →
        Api.getTaskByID (Api.deleteTaskByID db t.ID).2 s.ID
          = { status := 200, body := Body.task s }) ∧
    ((Handler.DeleteTask idStr gdb).1.status = 204 ∧
      (Handler.GetTaskByID idStr (Handler.DeleteTask idStr gdb).2).1
        = { status := 404, body := Body.error "task not found" } ∧
      ∀ s ∈ gdb.rows, s.ID ≠ g.ID → ∀ sStr, ParseUint32 sStr = some s.ID →
        (Handler.GetTaskByID sStr (Handler.DeleteTask idStr gdb).2).1
          = { status := 200, body := Body.task s }) :=
  ⟨main_delete_then_get db idVar t hup hkey ht hid,
   api_delete_then_get db t hup hkey ht,
   handler_delete_then_get gdb idStr g hgup hgkey hg hgid⟩

theorem delete_then_get_not_found_witness :
    ((Main.deleteTask shop "1").1.status = 204 ∧
      Main.getTask (Main.deleteTask shop "1").2 "1"
        = { status := 404, body := Body.error "Task not found" } ∧
      Main.getTask (Main.deleteTask shop "1").2 "2"
        = { status := 200, body := Body.task bread }) ∧
    ((Api.deleteTaskByID shop 1).1.status = 204 ∧
      Api.getTaskByID (Api.deleteTaskByID shop 1).2 1
        = { status := 404, body := Body.text "Task not found" } ∧
      Api.getTaskByID (Api.deleteTaskByID shop 1).2 2
        = { status := 200, body := Body.task bread }) ∧
    ((Handler.DeleteTask "1" Repository.gormShop).1.status = 204 ∧
      (Handler.GetTaskByID "1" (Handler.DeleteTask "1" Repository.gormShop).2).1
        = { status := 404, body := Body.error "task not found" } ∧
      (Handler.GetTaskByID "2" (Handler.DeleteTask "1" Repository.gormShop).2).1
        = { status := 200, body := Body.task Domain.bread }) :=
  have h := delete_then_get_not_found shop "1" milk Repository.gormShop "1" Domain.milk
    rfl (by decide) (by decide) rfl rfl (by decide) (by decide) rfl
  ⟨⟨h.1.1, h.1.2.1, h.1.2.2 bread (by decide) (by decide) "2" rfl⟩,
   ⟨h.2.1.1, h.2.1.2.1, h.2.1.2.2 bread (by decide) (by decide)⟩,
   ⟨h.2.2.1, h.2.2.2.1, h.2.2.2.2 Domain.bread (by decide) (by decide) "2" rfl⟩⟩

/-! ## Listing -/

/-- The scan loop collects, in order, the rows that decode. -/
theorem scanRows_elems (rows : Rows) (tasks : Slice Task) :
    (scanRows rows tasks).elems = tasks.elems ++ rows.filterMap id := by
  induction rows generalizing tasks with
  | nil => simp [scanRows]
  | cons r rest ih =>
    cases r with
    | none =>
      rw [scanRows, ih]
      simp
    | some t =>
      rw [scanRows, ih]
      cases tasks <;> simp [Slice.append, Slice.elems]

/-- Sorting rows with distinct identifiers by `ORDER BY id` yields them each
once, in strictly ascending order of identifier. -/
theorem orderByID_strict (rows : List Task) (hkey : (rows.map (fun x => x.ID)).Nodup) :
    (rows.insertionSort (fun a b => a.ID ≤ b.ID)).Perm rows ∧
    (rows.insertionSort (fun a b => a.ID ≤ b.ID)).Sorted (fun a b => a.ID < b.ID) := by
  haveI : IsTotal Task (fun a b => a.ID ≤ b.ID) := ⟨fun a b => le_total a.ID b.ID⟩
  haveI : IsTrans Task (fun a b => a.ID ≤ b.ID) := ⟨fun _ _ _ h1 h2 => le_trans h1 h2⟩
  have hperm := List.perm_insertionSort (fun a b : Task => a.ID ≤ b.ID) rows
  have hsorted := List.sorted_insertionSort (fun a b : Task => a.ID ≤ b.ID) rows
  have hnodup : ((rows.insertionSort (fun a b => a.ID ≤ b.ID)).map (fun x => x.ID)).Nodup :=
    ((hperm.map (fun x : Task => x.ID)).nodup_iff).2 hkey
  have hne : (rows.insertionSort (fun a b => a.ID ≤ b.ID)).Pairwise
      (fun a b => a.ID ≠ b.ID) := by
    simpa [List.Nodup, List.pairwise_map] using hnodup
  refine ⟨hperm, ?_⟩
  exact (List.Pairwise.and hsorted hne).imp (fun h => lt_of_le_of_ne h.1 h.2)

/-- The raw-driver `getTasks`: on a reachable database with distinct identifiers
both servers answer 200 with the stored tasks, each once, in strictly ascending
order of identifier. -/
theorem raw_getTasks_ascending (db : DB) (hup : db.up = true)
    (hkey : (db.rows.map (fun x => x.ID)).Nodup) :
    ∃ tasks : Slice Task,
      Main.getTasks db = { status := 200, body := encodeSlice tasks } ∧
      Api.getTasks db = { status := 200, body := encodeSlice tasks } ∧
      tasks.elems.Perm db.rows ∧ tasks.elems.Sorted (fun a b => a.ID < b.ID) := by
  have hs := orderByID_strict db.rows hkey
  refine ⟨scanRows ((db.rows.insertionSort (fun a b => a.ID ≤ b.ID)).map some) none, ?_, ?_, ?_⟩
  · simp [Main.getTasks, Main.getTasksOn, DB.Query, hup, StatusOK]
  · simp [Api.getTasks, Api.getTasksOn, Api.ConnectDB, DB.Query, hup, StatusOK]
  · have he : (scanRows ((db.rows.insertionSort (fun a b => a.ID ≤ b.ID)).map some) none).elems
        = db.rows.insertionSort (fun a b => a.ID ≤ b.ID) := by
      rw [scanRows_elems]
      simp [Slice.elems, List.filterMap_map]
    rw [he]
    exact hs

/-- Claim C8, evaluated on the code: with `bread` (identifier 2) ahead of `milk`
(identifier 1) in scan order, `taskRepository.GetAll`, a `Find` with no
`ORDER BY`, hands the rows back in that order, and `GetAllTasks` answers 200
with a list that is not in ascending order of identifier. -/
theorem GetAllTasks_in_scan_order :
    (Service.GetAllTasks Repository.gormShuffled).1 = Except.ok [Domain.bread, Domain.milk] ∧
    (Handler.GetAllTasks Repository.gormShuffled).1
      = { status := 200, body := Body.tasks [Domain.bread, Domain.milk] } ∧
    ¬ List.Sorted (fun a b : Domain.Task => a.ID < b.ID) [Domain.bread, Domain.milk] :=
  ⟨rfl, rfl, by decide⟩

/-- Claim C9, evaluated on the code: when no task is stored, `getTasks` of both
raw-driver servers never appends to the nil slice `tasks` and answers 200 with
the JSON value `null`, which is not the empty array. -/
theorem getTasks_empty_store_is_null (nextID : Int) (now : Time) :
    Main.getTasks { rows := [], nextID := nextID, now := now, up := true }
      = { status := 200, body := Body.null } ∧
    Api.getTasks { rows := [], nextID := nextID, now := now, up := true }
      = { status := 200, body := Body.null } ∧
    (Body.null : Body Task) ≠ Body.tasks [] :=
  ⟨rfl, rfl, by decide⟩

/-- Claim C10, evaluated on the code: every task of `shop` has a non-empty
title, yet after a PUT of `{"completed": true}` to task 1, answered 200 by
`updateTask` and by `updateTaskByID`, the store holds a task with an empty
title. -/
theorem updateTask_stores_empty_title :
    (∀ t ∈ shop.rows, t.Title ≠ "") ∧
    (Main.updateTask shop "1" (some completedOnly)).1.status = 200 ∧
    (∃ t ∈ (Main.updateTask shop "1" (some completedOnly)).2.rows, t.Title = "") ∧
    (Api.updateTaskByID shop 1 (some completedOnly)).1.status = 200 ∧
    (∃ t ∈ (Api.updateTaskByID shop 1 (some completedOnly)).2.rows, t.Title = "") := by
  refine ⟨by decide, rfl, ⟨{ milk with Title := "", Description := "", Completed := true }, ?_, rfl⟩,
    rfl, ⟨{ milk with Title := "", Description := "", Completed := true }, ?_, rfl⟩⟩
  · have h : (Main.updateTask shop "1" (some completedOnly)).2.rows
        = [{ milk with Title := "", Description := "", Completed := true }, bread] := rfl
    rw [h]
    exact List.mem_cons_self _ _
  · have h : (Api.updateTaskByID shop 1 (some completedOnly)).2.rows
        = [{ milk with Title := "", Description := "", Completed := true }, bread] := rfl
    rw [h]
    exact List.mem_cons_self _ _

/-! ## The title invariant on the other write paths -/

/-- Creating and deleting through the raw-driver handlers keep every stored
title non-empty, whatever the request and the state of the database. -/
theorem raw_create_delete_keep_titles (db : DB) (decoded : Option Task) (idVar : String)
    (id : Int) (hinv : ∀ t ∈ db.rows, t.Title ≠ "") :
    (∀ t ∈ (Main.createTask db decoded).2.rows, t.Title ≠ "") ∧
    (∀ t ∈ (Api.createTask db decoded).2.rows, t.Title ≠ "") ∧
    (∀ t ∈ (Main.deleteTask db idVar).2.rows, t.Title ≠ "") ∧
    (∀ t ∈ (Api.deleteTaskByID db id).2.rows, t.Title ≠ "") := by
  rcases db with ⟨rows, nextID, now, up⟩
  simp only at hinv
  refine ⟨?_, ?_, ?_, ?_⟩
  · cases decoded with
    | none => simpa [Main.createTask] using hinv
    | some newTask =>
      by_cases htitle : newTask.Title = "" <;> cases up <;>
        simp [Main.createTask, DB.Insert, htitle] <;>
        first
          | exact hinv
          | (intro t ht; rcases ht with ht | ht
             · exact hinv t ht
             · subst ht; exact htitle)
  · cases decoded with
    | none => simpa [Api.createTask] using hinv
    | some newTask =>
      by_cases htitle : newTask.Title = "" <;> cases up <;>
        simp [Api.createTask, Api.ConnectDB, DB.Insert, htitle] <;>
        first
          | exact hinv
          | (intro t ht; rcases ht with ht | ht
             · exact hinv t ht
             · subst ht; exact htitle)
  · cases hparse : Atoi idVar with
    | none => simpa [Main.deleteTask, hparse] using hinv
    | some k =>
      cases up
      · simpa [Main.deleteTask, hparse, DB.ExecDelete] using hinv
      · by_cases hc : rows.countP (fun x => x.ID == k) = 0 <;>
          simp only [Main.deleteTask, hparse, DB.ExecDelete, if_true, hc, if_false] <;>
          intro t ht <;> exact hinv t (List.mem_filter.1 ht).1
  · cases up
    · simpa [Api.deleteTaskByID, Api.ConnectDB, DB.ExecDelete] using hinv
    · by_cases hc : rows.countP (fun x => x.ID == id) = 0 <;>
        simp only [Api.deleteTaskByID, Api.ConnectDB, DB.ExecDelete, if_true, hc, if_false] <;>
        intro t ht <;> exact hinv t (List.mem_filter.1 ht).1

/-- In the layered server `UpdateTask` keeps every stored title non-empty, also
when the request carries an empty title: `Updates` skips the zero value. -/
theorem service_update_keeps_titles (db : Repository.GormDB) (id : Nat)
    (req : Domain.UpdateTaskRequest) (hinv : ∀ t ∈ db.rows, t.Title ≠ "") :
    ∀ t ∈ (Service.UpdateTask id req db).2.rows, t.Title ≠ "" := by
  have hmap : ∀ (task : Domain.Task) (rows : List Domain.Task),
      (∀ t ∈ rows, t.Title ≠ "") →
      ∀ t ∈ rows.map (fun row => if row.ID == id then Repository.gormUpdates task row else row),
        t.Title ≠ "" := by
    intro task rows hrows t ht
    rcases List.mem_map.1 ht with ⟨row, hrow, rfl⟩
    by_cases hid : row.ID = id
    · by_cases htitle : task.Title = "" <;>
        simp [hid, Repository.gormUpdates, htitle, hrows row hrow]
    · simpa [hid] using hrows row hrow
  rcases db with ⟨rows, nextID, now, outages, calls⟩
  simp only at hinv
  rcases outages with _ | ⟨_ | _, _ | ⟨_ | _, rest⟩⟩ <;>
    cases hfind : rows.find? (fun t => t.ID == id) <;>
    simp only [Service.UpdateTask, Repository.GetByID, Repository.Update,
      Repository.GormDB.record, Repository.GormDB.send, hfind, Bool.not_true, Bool.not_false] <;>
    first
      | exact hinv
      | exact hmap _ rows hinv

/-! ## Registration and login -/

namespace Service

open UserRepository

/-- The lookup by email finds a user as soon as one with that email is stored. -/
theorem find?_email_of_mem (users : List Domain.User) (email : String) (u : Domain.User)
    (hu : u ∈ users) (hemail : u.Email = email) :
    ∃ v, users.find? (fun x => x.Email == email) = some v := by
  cases h : users.find? (fun x => x.Email == email) with
  | some v => exact ⟨v, rfl⟩
  | none =>
    have hne := List.find?_eq_none.1 h u hu
    exact absurd hemail (by simpa using hne)

/-- Claim C11: on a reachable user store that holds a user with the request's
email, `Register` fails with "user already exists"; the one repository call it
makes is `GetByEmail`, never `Create`, and the stored users are unchanged. -/
theorem Register_existing_email_rejected (lib : Primitives) (s : authService) (now : Instant)
    (req : Domain.RegisterRequest) (db : UserDB) (u : Domain.User)
    (hup : db.outages = []) (hu : u ∈ db.users) (hemail : u.Email = req.Email) :
    (Register lib s now req db).1 = Except.error (Error.New "user already exists") ∧
    (Register lib s now req db).2.calls = db.calls ++ [UserRepository.Call.GetByEmail req.Email] ∧
    (Register lib s now req db).2.users = db.users := by
  obtain ⟨v, hv⟩ := find?_email_of_mem db.users req.Email u hu hemail
  simp [Register, UserRepository.GetByEmail, UserDB.record, UserDB.send, hup, hv]

theorem Register_existing_email_rejected_witness :
    (Register toyLib defaultService 0 { Email := "a@b.com", Password := "secret2" } members).1
      = Except.error (Error.New "user already exists") ∧
    (Register toyLib defaultService 0 { Email := "a@b.com", Password := "secret2" }
        members).2.calls
      = members.calls ++ [UserRepository.Call.GetByEmail "a@b.com"] ∧
    (Register toyLib defaultService 0 { Email := "a@b.com", Password := "secret2" }
        members).2.users
      = members.users :=
  Register_existing_email_rejected toyLib defaultService 0
    { Email := "a@b.com", Password := "secret2" } members alice rfl (by decide) rfl

/-- When the lookup itself fails, `Register` discards the error, goes on to
`Create`, and it is the store that refuses the duplicate email. -/
theorem Register_lookup_failure_reaches_Create :
    (Register toyLib defaultService 0 { Email := "a@b.com", Password := "secret2" }
        membersDown).1
      = Except.error (Error.New "duplicate key value violates unique constraint") ∧
    (Register toyLib defaultService 0 { Email := "a@b.com", Password := "secret2" }
        membersDown).2.calls
      = [UserRepository.Call.GetByEmail "a@b.com", UserRepository.Call.Create "a@b.com"] ∧
    (Register toyLib defaultService 0 { Email := "a@b.com", Password := "secret2" }
        membersDown).2.users
      = membersDown.users :=
  ⟨rfl, rfl, rfl⟩

/-- Claim C12: `Login` returns the same value, no response and the error
"invalid credentials", for an email that no stored user has and for the email
of a stored user whose hash the password does not verify against. -/
theorem Login_failures_identical (lib : Primitives) (s : authService) (now : Instant)
    (unknown wrong : Domain.LoginRequest) (db1 db2 : UserDB) (u : Domain.User) (e : Error)
    (habsent : ∀ v ∈ db1.users, v.Email ≠ unknown.Email)
    (hup : db2.outages = []) (hkey : (db2.users.map (fun x => x.Email)).Nodup)
    (hu : u ∈ db2.users) (hemail : u.Email = wrong.Email)
    (hwrong : lib.CompareHashAndPassword u.Password wrong.Password = Except.error e) :
    (Login lib s now unknown db1).1 = Except.error (Error.New "invalid credentials") ∧
    (Login lib s now wrong db2).1 = Except.error (Error.New "invalid credentials") ∧
    (Login lib s now unknown db1).1 = (Login lib s now wrong db2).1 := by
  have h1 : (Login lib s now unknown db1).1 = Except.error (Error.New "invalid credentials") := by
    have hfind := find?_key_of_absent (fun x : Domain.User => x.Email) db1.users unknown.Email
      habsent
    rcases db1 with ⟨users, nextID, clock, outages, calls⟩
    simp only at hfind
    rcases outages with _ | ⟨_ | _, rest⟩ <;>
      simp [Login, UserRepository.GetByEmail, UserDB.record, UserDB.send, hfind]
  have h2 : (Login lib s now wrong db2).1 = Except.error (Error.New "invalid credentials") := by
    have hfind := find?_key_of_mem (fun x : Domain.User => x.Email) db2.users u hkey hu
    simp only [hemail] at hfind
    simp [Login, UserRepository.GetByEmail, UserDB.record, UserDB.send, hup, hfind, hwrong]
  exact ⟨h1, h2, h1.trans h2.symm⟩

theorem Login_failures_identical_witness :
    (Login toyLib defaultService 0 { Email := "x@y.com", Password := "secret1" } members).1
      = Except.error (Error.New "invalid credentials") ∧
    (Login toyLib defaultService 0 { Email := "a@b.com", Password := "guess" } members).1
      = Except.error (Error.New "invalid credentials") ∧
    (Login toyLib defaultService 0 { Email := "x@y.com", Password := "secret1" } members).1
      = (Login toyLib defaultService 0 { Email := "a@b.com", Password := "guess" } members).1 :=
  Login_failures_identical toyLib defaultService 0
    { Email := "x@y.com", Password := "secret1" } { Email := "a@b.com", Password := "guess" }
    members members alice
    (Error.New "hashedPassword is not the hash of the given password")
    (by decide) rfl (by decide) (by decide) rfl rfl

/-- The encoding of a user does not depend on the password and has exactly the
members `id`, `email` and `created_at`. -/
theorem User_MarshalJSON_hides_password (u : Domain.User) (p : String) :
    ({ u with Password := p } : Domain.User).MarshalJSON = u.MarshalJSON ∧
    u.MarshalJSON.map Prod.fst = ["id", "email", "created_at"] :=
  ⟨rfl, rfl⟩

/-- Claim C13: when `Register` succeeds, the password of the returned user, who
is the row appended to the store, is the output of `GenerateFromPassword` on
the request's password, hence not the plaintext for a hashing primitive that
never returns its input; and the JSON encoding of the `AuthResponse` has the
members `token` and `user`, that of a `User` the members `id`, `email` and
`created_at`, neither depending on the password. -/
theorem Register_stores_only_the_hash (lib : Primitives) (s : authService) (now : Instant)
    (req : Domain.RegisterRequest) (db db1 : UserDB) (resp : Domain.AuthResponse)
    (hok : Register lib s now req db = (Except.ok resp, db1))
    (hhash : ∀ p h, lib.GenerateFromPassword p = Except.ok h → h ≠ p) :
    lib.GenerateFromPassword req.Password = Except.ok resp.User.Password ∧
    resp.User.Password ≠ req.Password ∧
    db1.users = db.users ++ [resp.User] ∧
    resp.User.Email = req.Email ∧
    resp.MarshalJSON.map Prod.fst = ["token", "user"] ∧
    resp.User.MarshalJSON.map Prod.fst = ["id", "email", "created_at"] ∧
    (∀ p, ({ resp with User := { resp.User with Password := p } } :
        Domain.AuthResponse).MarshalJSON = resp.MarshalJSON) ∧
    (∀ (u : Domain.User) (p : String),
      ({ u with Password := p } : Domain.User).MarshalJSON = u.MarshalJSON) := by
  have hgen : lib.GenerateFromPassword req.Password = Except.ok resp.User.Password ∧
      db1.users = db.users ++ [resp.User] ∧ resp.User.Email = req.Email := by
    unfold Register at hok
    split at hok
    · simp at hok
    · rename_i dbA hget
      split at hok
      · simp at hok
      · rename_i hashedPassword hhashed
        dsimp only at hok
        split at hok
        · simp at hok
        · rename_i user dbB hcreate
          split at hok
          · simp at hok
          · rename_i token htoken
            simp only [Prod.mk.injEq, Except.ok.injEq] at hok
            obtain ⟨hresp, hdb⟩ := hok
            subst hresp
            subst hdb
            have hdbA : dbA.users = db.users := by
              revert hget
              rcases db with ⟨users, nextID, clock, outages, calls⟩
              rcases outages with _ | ⟨_ | _, rest⟩ <;>
                cases hf : users.find? (fun u => u.Email == req.Email) <;>
                simp [UserRepository.GetByEmail, UserDB.record, UserDB.send, hf] <;>
                intro _ h <;> rw [← h]
            revert hcreate
            rcases dbA with ⟨users, nextID, clock, outages, calls⟩
            simp only at hdbA
            subst hdbA
            rcases outages with _ | ⟨_ | _, rest⟩ <;>
              by_cases hany : (db.users.any fun u => u.Email == req.Email) = true <;>
              simp [UserRepository.Create, UserDB.record, UserDB.send, hany, hhashed] <;>
              intro hu hd <;> subst hu <;> subst hd <;> simp
  exact ⟨hgen.1, hhash _ _ hgen.1, hgen.2.1, hgen.2.2, rfl, rfl, fun _ => rfl, fun _ _ => rfl⟩

/-- The stand-in hash never returns its input: it is seven characters longer. -/
theorem toyLib_hash_ne (p h : String) (hh : toyLib.GenerateFromPassword p = Except.ok h) :
    h ≠ p := by
  simp only [toyLib, Except.ok.injEq] at hh
  subst hh
  intro heq
  have hlen := congrArg String.length heq
  rw [String.length_append] at hlen
  have h7 : "$2a$10$".length = 7 := by decide
  omega

theorem Register_stores_only_the_hash_witness :
    toyLib.GenerateFromPassword "secret3" = Except.ok carol.Password ∧
    carol.Password ≠ "secret3" ∧
    membersAndCarol.users = members.users ++ [carol] ∧
    carol.Email = "c@d.com" ∧
    (({ Token := "signed-with-default-secret-key", User := carol } :
        Domain.AuthResponse).MarshalJSON.map Prod.fst = ["token", "user"]) ∧
    carol.MarshalJSON.map Prod.fst = ["id", "email", "created_at"] :=
  have h := Register_stores_only_the_hash toyLib defaultService 0
    { Email := "c@d.com", Password := "secret3" } members membersAndCarol
    { Token := "signed-with-default-secret-key", User := carol } rfl toyLib_hash_ne
  ⟨h.1, h.2.1, h.2.2.1, h.2.2.2.1, h.2.2.2.2.1, h.2.2.2.2.2.1⟩

/-! ## Tokens -/

/-- Claim C14: for every user identifier and issuance instant, `generateToken`
signs, with HS256 and under the secret of the service, the claims `user_id`,
the identifier, and `exp`, the Unix time of issuance plus 86400 seconds. -/
theorem generateToken_expires_after_24h (lib : Primitives) (s : authService) (now : Instant)
    (userID : Nat) :
    generateToken lib s now userID
      = lib.SignedString
          { Method := SigningMethod.HS256,
            Claims := [("user_id", (userID : Int)), ("exp", Unix now + 86400)] }
          s.jwtSecret := by
  have hexp : Unix (Add now (Hour * 24)) = Unix now + 86400 := by
    simp only [Unix, Add, Hour]
    omega
  simp only [generateToken, hexp]

/-- Claim C15: for a token whose signing method is not an HMAC method the key
function returns the error "invalid token", no key, and `ValidateToken` fails on
a token string that decodes to it; for a token with an HMAC method the key
function returns the secret of the service. -/
theorem keyFunc_only_for_HMAC (lib : Primitives) (s : authService) (now : Instant)
    (tokenString : String) (token other : Token)
    (hhmac : token.Method.isHMAC = true) (hother : other.Method.isHMAC = false)
    (hparse : lib.ParseUnverified tokenString = Except.ok other) :
    keyFunc s token = Except.ok s.jwtSecret ∧
    keyFunc s other = Except.error (Error.New "invalid token") ∧
    ValidateToken lib s now tokenString
      = Except.error
          (Error.New "token is unverifiable: error while executing keyfunc: invalid token") := by
  refine ⟨by simp [keyFunc, hhmac], by simp [keyFunc, hother], ?_⟩
  simp [ValidateToken, jwtParse, hparse, keyFunc, hother, Error.Error]

theorem keyFunc_only_for_HMAC_witness :
    keyFunc defaultService { Method := SigningMethod.HS256, Claims := [] }
      = Except.ok defaultService.jwtSecret ∧
    keyFunc defaultService
        { Method := SigningMethod.RS256, Claims := [("user_id", 1), ("exp", 100)] }
      = Except.error (Error.New "invalid token") ∧
    ValidateToken toyLib defaultService 0 "rs256-token"
      = Except.error
          (Error.New "token is unverifiable: error while executing keyfunc: invalid token") :=
  keyFunc_only_for_HMAC toyLib defaultService 0 "rs256-token"
    { Method := SigningMethod.HS256, Claims := [] }
    { Method := SigningMethod.RS256, Claims := [("user_id", 1), ("exp", 100)] } rfl rfl rfl

end Service

/-! ## Errors of the store in the layered handlers -/

/-- Claim C16 as stated fails: the store holds task 1, yet when the read fails
`GetTaskByID` answers 404, and when the read goes through and the write fails
`UpdateTask` and `DeleteTask` answer 404; none of them answers 500. -/
theorem store_failure_answered_404 :
    Domain.milk ∈ Repository.gormShop.rows ∧
    (Handler.GetTaskByID "1" Repository.gormDown).1
      = { status := 404, body := Body.error "task not found" } ∧
    (Handler.UpdateTask "1"
        (Except.ok { Title := none, Description := none, Completed := some true })
        Repository.gormFlaky).1
      = { status := 404, body := Body.error "database unavailable" } ∧
    (Handler.DeleteTask "1" Repository.gormFlaky).1
      = { status := 404, body := Body.error "database unavailable" } ∧
    ¬ ((Handler.GetTaskByID "1" Repository.gormDown).1.status = 500) ∧
    ¬ ((Handler.UpdateTask "1"
        (Except.ok { Title := none, Description := none, Completed := some true })
        Repository.gormFlaky).1.status = 500) ∧
    ¬ ((Handler.DeleteTask "1" Repository.gormFlaky).1.status = 500) := by
  refine ⟨by decide, rfl, rfl, rfl, ?_, ?_, ?_⟩ <;> decide

/-- The statuses the three by-identifier handlers can answer with, for every
path parameter, body and state of the store. -/
theorem by_id_handler_statuses (db : Repository.GormDB) (idStr : String)
    (decoded : Except String Domain.UpdateTaskRequest) :
    ((Handler.GetTaskByID idStr db).1.status = 200 ∨
      (Handler.GetTaskByID idStr db).1.status = 400 ∨
      (Handler.GetTaskByID idStr db).1.status = 404) ∧
    ((Handler.UpdateTask idStr decoded db).1.status = 200 ∨
      (Handler.UpdateTask idStr decoded db).1.status = 400 ∨
      (Handler.UpdateTask idStr decoded db).1.status = 404) ∧
    ((Handler.DeleteTask idStr db).1.status = 204 ∨
      (Handler.DeleteTask idStr db).1.status = 400 ∨
      (Handler.DeleteTask idStr db).1.status = 404) := by
  refine ⟨?_, ?_, ?_⟩
  · cases hid : ParseUint32 idStr with
    | none => simp [Handler.GetTaskByID, hid, StatusBadRequest]
    | some id =>
      cases h : Service.GetTaskByID id db with
      | mk r d =>
        cases r <;>
          simp [Handler.GetTaskByID, hid, h, StatusNotFound, StatusOK]
  · cases hid : ParseUint32 idStr with
    | none => simp [Handler.UpdateTask, hid, StatusBadRequest]
    | some id =>
      cases decoded with
      | error msg =>
        simp [Handler.UpdateTask, Handler.bindUpdateTaskRequest, hid, StatusBadRequest]
      | ok req =>
        cases h : Service.UpdateTask id req db with
        | mk r d =>
          cases r <;>
            simp [Handler.UpdateTask, Handler.bindUpdateTaskRequest, hid, h, StatusNotFound,
              StatusOK]
  · cases hid : ParseUint32 idStr with
    | none => simp [Handler.DeleteTask, hid, StatusBadRequest]
    | some id =>
      cases h : Service.DeleteTask id db with
      | mk r d =>
        cases r <;>
          simp [Handler.DeleteTask, hid, h, StatusNotFound, StatusNoContent]

/-- Claim C16, amended: in the layered handlers for GET, PUT and DELETE on
`/api/tasks/{id}`, every error the service returns, whatever its cause, is
answered with status 404 and the message of the error; and for every path
parameter, body and state of the store none of the three handlers answers 500. -/
theorem service_errors_answered_404 (dbGet dbPut dbDel : Repository.GormDB) (idStr : String)
    (id : Nat) (req : Domain.UpdateTaskRequest) (e1 e2 e3 : Error)
    (db : Repository.GormDB) (anyStr : String)
    (decoded : Except String Domain.UpdateTaskRequest)
    (hid : ParseUint32 idStr = some id)
    (hget : (Service.GetTaskByID id dbGet).1 = Except.error e1)
    (hput : (Service.UpdateTask id req dbPut).1 = Except.error e2)
    (hdel : (Service.DeleteTask id dbDel).1 = Except.error e3) :
    (Handler.GetTaskByID idStr dbGet).1 = { status := 404, body := Body.error e1.Error } ∧
    (Handler.UpdateTask idStr (Except.ok req) dbPut).1
      = { status := 404, body := Body.error e2.Error } ∧
    (Handler.DeleteTask idStr dbDel).1 = { status := 404, body := Body.error e3.Error } ∧
    (Handler.GetTaskByID anyStr db).1.status ≠ 500 ∧
    (Handler.UpdateTask anyStr decoded db).1.status ≠ 500 ∧
    (Handler.DeleteTask anyStr db).1.status ≠ 500 := by
  have hst := by_id_handler_statuses db anyStr decoded
  refine ⟨?_, ?_, ?_, ?_, ?_, ?_⟩
  · cases h : Service.GetTaskByID id dbGet with
    | mk r d =>
      rw [h] at hget
      simp only at hget
      subst hget
      simp [Handler.GetTaskByID, hid, h, StatusNotFound]
  · cases h : Service.UpdateTask id req dbPut with
    | mk r d =>
      rw [h] at hput
      simp only at hput
      subst hput
      simp [Handler.UpdateTask, Handler.bindUpdateTaskRequest, hid, h, StatusNotFound]
  · cases h : Service.DeleteTask id dbDel with
    | mk r d =>
      rw [h] at hdel
      simp only at hdel
      subst hdel
      simp [Handler.DeleteTask, hid, h, StatusNotFound]
  · rcases hst.1 with h | h | h <;> omega
  · rcases hst.2.1 with h | h | h <;> omega
  · rcases hst.2.2 with h | h | h <;> omega

theorem service_errors_answered_404_witness :
    (Handler.GetTaskByID "1" Repository.gormDown).1
      = { status := 404, body := Body.error (Error.New "task not found").Error } ∧
    (Handler.UpdateTask "1"
        (Except.ok { Title := none, Description := none, Completed := some true })
        Repository.gormFlaky).1
      = { status := 404, body := Body.error Error.unavailable.Error } ∧
    (Handler.DeleteTask "1" Repository.gormFlaky).1
      = { status := 404, body := Body.error Error.unavailable.Error } ∧
    (Handler.GetTaskByID "2" Repository.gormDown).1.status ≠ 500 ∧
    (Handler.UpdateTask "2" (Except.error "unexpected end of JSON input")
        Repository.gormDown).1.status ≠ 500 ∧
    (Handler.DeleteTask "2" Repository.gormDown).1.status ≠ 500 :=
  service_errors_answered_404 Repository.gormDown Repository.gormFlaky Repository.gormFlaky
    "1" 1 { Title := none, Description := none, Completed := some true }
    (Error.New "task not found") Error.unavailable Error.unavailable
    Repository.gormDown "2" (Except.error "unexpected end of JSON input")
    rfl rfl rfl rfl

/-! ## Health -/

/-- Claim C17 as stated fails: with the database unreachable, `healthCheck` of
`src/main.go` and `Health` of `src/api/health.go` answer a GET with 200, not 503. -/
theorem raw_health_200_when_down :
    ({ shop with up := false } : DB).up = false ∧
    (Main.healthCheck { shop with up := false } 9).status = 200 ∧
    (Api.Health "GET" { shop with up := false } 9).status = 200 ∧
    ¬ ((Main.healthCheck { shop with up := false } 9).status = 503) ∧
    ¬ ((Api.Health "GET" { shop with up := false } 9).status = 503) := by
  refine ⟨rfl, rfl, rfl, ?_, ?_⟩ <;> decide

/-- Claim C17, amended: the `/health` closure of the layered router answers 200
when `database.HealthCheck` succeeds and 503 when it fails; `healthCheck` of
`src/main.go` and `Health` of `src/api/health.go` answer a GET with 200 in
both cases and report the outcome of the check in the member `database` of the
body, "connected" or "disconnected". -/
theorem health_status (gdb : Repository.GormDB) (db : DB) (now : Time) :
    (Handler.health gdb).1.status
      = (match (Handler.HealthCheck gdb).1 with
         | Except.ok _ => 200
         | Except.error _ => 503) ∧
    (Main.healthCheck db now).status = 200 ∧
    (Api.Health "GET" db now).status = 200 ∧
    (∃ members, (Main.healthCheck db now).body = HealthBody.object members ∧
      members.lookup "database"
        = some (Domain.Scalar.str (if db.up then "connected" else "disconnected"))) ∧
    (∃ members, (Api.Health "GET" db now).body = HealthBody.object members ∧
      members.lookup "database"
        = some (Domain.Scalar.str (if db.up then "connected" else "disconnected"))) := by
  refine ⟨?_, rfl, ?_, ⟨_, rfl, ?_⟩, ?_⟩
  · rcases gdb with ⟨rows, nextID, clock, outages, calls⟩
    rcases outages with _ | ⟨_ | _, rest⟩ <;> rfl
  · simp [Api.Health, StatusOK]
  · simp [List.lookup]
  · cases hup : db.up <;>
      simp [Api.Health, Api.ConnectDB, hup, List.lookup]

/-! ## The path of `TaskByID` -/

/-- Splitting never yields the empty list. -/
theorem splitSlash_ne_nil (cs : List Char) : splitSlash cs ≠ [] := by
  cases cs with
  | nil => simp [splitSlash]
  | cons c cs =>
    by_cases hc : c = '/'
    · simp [splitSlash, hc]
    · cases h : splitSlash cs <;> simp [splitSlash, hc, h]

/-- Splitting at the first slash: a piece without slash, then the rest. -/
theorem splitSlash_piece (w cs : List Char) (hw : ∀ c ∈ w, c ≠ '/') :
    splitSlash (w ++ '/' :: cs) = w :: splitSlash cs := by
  induction w with
  | nil => simp [splitSlash]
  | cons c w ih =>
    have hc : c ≠ '/' := hw c (List.mem_cons_self c w)
    have hrest := ih (fun d hd => hw d (List.mem_cons_of_mem c hd))
    simp [splitSlash, hc, hrest]

/-- The pieces of a path `/api/task/<rest>`: the piece at index 2 is `task`. -/
theorem Split_task_path (rest : String) :
    ∃ pieces, Split ("/api/task/" ++ rest) = "" :: "api" :: "task" :: pieces ∧ pieces ≠ [] := by
  have h1 : ("/api/task/" ++ rest).toList
      = [] ++ '/' :: (['a', 'p', 'i'] ++ '/' :: (['t', 'a', 's', 'k'] ++ '/' :: rest.toList)) := by
    show ("/api/task/" ++ rest).data = _
    rw [String.data_append]
    rfl
  refine ⟨(splitSlash rest.toList).map String.mk, ?_, by simpa using splitSlash_ne_nil _⟩
  unfold Split
  rw [h1, splitSlash_piece _ _ (by simp), splitSlash_piece _ _ (by decide),
    splitSlash_piece _ _ (by decide)]
  rfl

/-- Claim C18, evaluated on the code: for a request with no `id` query
parameter and the path `/api/task/<rest>`, whatever `<rest>` is, the identifier
string `TaskByID` takes from the path is the piece `task`, not `<rest>`; it is
no integer, and a GET, a PUT and a DELETE are all answered 400 "Invalid task
ID" with the database untouched. -/
theorem TaskByID_path_id_rejected (db : DB) (rest : String) (decoded : Option Task) :
    Api.taskIDString { Method := "GET", Query := [], Path := "/api/task/" ++ rest,
                       decoded := decoded } = "task" ∧
    Api.TaskByID db { Method := "GET", Query := [], Path := "/api/task/" ++ rest,
                      decoded := decoded }
      = ({ status := 400, body := Body.text "Invalid task ID" }, db) ∧
    Api.TaskByID db { Method := "PUT", Query := [], Path := "/api/task/" ++ rest,
                      decoded := decoded }
      = ({ status := 400, body := Body.text "Invalid task ID" }, db) ∧
    Api.TaskByID db { Method := "DELETE", Query := [], Path := "/api/task/" ++ rest,
                      decoded := decoded }
      = ({ status := 400, body := Body.text "Invalid task ID" }, db) := by
  obtain ⟨pieces, hsplit, hne⟩ := Split_task_path rest
  have hid : ∀ m : String,
      Api.taskIDString { Method := m, Query := [], Path := "/api/task/" ++ rest,
                         decoded := decoded } = "task" := by
    intro m
    simp [Api.taskIDString, Api.Request.QueryGet, List.lookup, hsplit]
  have hatoi : Atoi "task" = none := rfl
  refine ⟨hid "GET", ?_, ?_, ?_⟩ <;>
    simp [Api.TaskByID, hid, hatoi, StatusBadRequest]

/-- An `id` query parameter, when present and not empty, is the identifier
string, whatever the path. -/
theorem taskIDString_query_first (r : Api.Request) (h : r.QueryGet "id" ≠ "") :
    Api.taskIDString r = r.QueryGet "id" := by
  simp [Api.taskIDString, h]

/-! ## Rows that do not decode -/

/-- The slice the scan loop builds from the nil slice: nil when no row
decodes, else the rows that decode, in order. -/
theorem scanRows_from_nil (rows : Rows) :
    scanRows rows none
      = (match rows.filterMap id with
         | [] => none
         | t :: ts => some (t :: ts)) := by
  have hsome : ∀ (rs : Rows) (l : List Task),
      scanRows rs (some l) = some (l ++ rs.filterMap id) := by
    intro rs
    induction rs with
    | nil => intro l; simp [scanRows]
    | cons r rest ih =>
      intro l
      cases r with
      | none => simpa [scanRows] using ih l
      | some t =>
        rw [scanRows, Slice.append, ih]
        simp
  induction rows with
  | nil => rfl
  | cons r rest ih =>
    cases r with
    | none => simpa [scanRows] using ih
    | some t =>
      rw [scanRows, Slice.append, hsome]
      simp

/-- Claim C19, evaluated on the code: for every sequence of rows the list query
returns, `getTasks` of both raw-driver servers answers 200; the body is the
array of exactly the rows that decode, in their order, when there is one, and
the JSON value `null` when no row decodes.  A store whose one row does not
decode is answered `null`, not the empty array. -/
theorem getTasks_body_by_decodable_rows (rows : Rows) :
    Main.getTasksOn (Except.ok rows)
      = { status := 200,
          body := (match rows.filterMap id with
                   | [] => Body.null
                   | t :: ts => Body.tasks (t :: ts)) } ∧
    Api.getTasksOn (Except.ok rows)
      = { status := 200,
          body := (match rows.filterMap id with
                   | [] => Body.null
                   | t :: ts => Body.tasks (t :: ts)) } ∧
    Main.getTasksOn (Except.ok [none]) = { status := 200, body := Body.null } ∧
    Api.getTasksOn (Except.ok [none]) = { status := 200, body := Body.null } ∧
    (Body.null : Body Task) ≠ Body.tasks [] := by
  have hbody : encodeSlice (scanRows rows none)
      = (match rows.filterMap id with
         | [] => Body.null
         | t :: ts => Body.tasks (t :: ts)) := by
    rw [scanRows_from_nil]
    cases rows.filterMap id <;> rfl
  refine ⟨?_, ?_, rfl, rfl, by decide⟩
  · simp only [Main.getTasksOn, hbody, StatusOK]
  · simp only [Api.getTasksOn, hbody, StatusOK]

end GoCR
